import Mathlib

/-!
# BTrDB HTTP transcoder (`grpcinterface/btrdb.pb.gw.go`)

A shallow embedding of the reverse proxy that maps `POST /v5/<opname>` onto the
methods of the `BTrDBClient` interface, and the properties of its routing
table, request functions and handlers.

The effects of a Go function (decoding the body, calling the backend, writing
an HTTP error, forwarding a response, cancelling a context) are recorded as a
list of `Event`s in program order.
-/

namespace BTrDB

/-! ## Operations of the service -/

/-- The methods of the `BTrDBClient` interface called by the transcoder, in the
order in which `RegisterBTrDBHandlerClient` registers their handlers. -/
inductive Op
  | RawValues
  | AlignedWindows
  | Windows
  | StreamInfo
  | SetStreamAnnotations
  | SetStreamTags
  | Create
  | ListCollections
  | LookupStreams
  | Nearest
  | Changes
  | Insert
  | Delete
  | Info
  | FaultInject
  | Flush
  | Obliterate
  | GetMetadataUsage
  | GenerateCSV
  | SQLQuery
  deriving DecidableEq, Repr

/-- All operations, in registration order. -/
def Op.all : List Op :=
  [.RawValues, .AlignedWindows, .Windows, .StreamInfo, .SetStreamAnnotations,
   .SetStreamTags, .Create, .ListCollections, .LookupStreams, .Nearest, .Changes,
   .Insert, .Delete, .Info, .FaultInject, .Flush, .Obliterate, .GetMetadataUsage,
   .GenerateCSV, .SQLQuery]

/-- The Go name of the RPC method, as written after `client.` in the source. -/
def Op.methodName : Op → String
  | .RawValues => "RawValues"
  | .AlignedWindows => "AlignedWindows"
  | .Windows => "Windows"
  | .StreamInfo => "StreamInfo"
  | .SetStreamAnnotations => "SetStreamAnnotations"
  | .SetStreamTags => "SetStreamTags"
  | .Create => "Create"
  | .ListCollections => "ListCollections"
  | .LookupStreams => "LookupStreams"
  | .Nearest => "Nearest"
  | .Changes => "Changes"
  | .Insert => "Insert"
  | .Delete => "Delete"
  | .Info => "Info"
  | .FaultInject => "FaultInject"
  | .Flush => "Flush"
  | .Obliterate => "Obliterate"
  | .GetMetadataUsage => "GetMetadataUsage"
  | .GenerateCSV => "GenerateCSV"
  | .SQLQuery => "SQLQuery"

/-- ASCII lowercasing of one character. -/
def lowerChar (c : Char) : Char :=
  if 65 ≤ c.toNat ∧ c.toNat ≤ 90 then Char.ofNat (c.toNat + 32) else c

/-- ASCII lowercasing of a name. -/
def lowercase (s : String) : String := String.mk (s.data.map lowerChar)

/-! ## URL patterns -/

/-- The arguments of `runtime.NewPattern(version, ops, pool, verb)`: `ops` is a
flat sequence of (opcode, operand) pairs over the string `pool`. -/
structure Pattern where
  version : Nat
  ops : List Nat
  pool : List String
  verb : String
  deriving DecidableEq, Repr

/-- Interpretation of an opcode sequence made of literal pushes only: opcode `2`
(`OpLitPush`) with operand `i` matches the literal path segment `pool[i]`.  Any
other opcode, a dangling opcode or an index outside the pool gives `none`. -/
def litSegments (pool : List String) : List Nat → Option (List String)
  | [] => some []
  | 2 :: i :: rest =>
    match pool.get? i, litSegments pool rest with
    | some s, some r => some (s :: r)
    | _, _ => none
  | _ => none

/-- The literal path segments a pattern matches. -/
def Pattern.segments (p : Pattern) : Option (List String) := litSegments p.pool p.ops

/-- The URL path of a list of segments: each segment preceded by a slash. -/
def urlPath (segs : List String) : String := String.join (segs.map fun s => "/" ++ s)

def pattern_BTrDB_RawValues_0 : Pattern := ⟨1, [2, 0, 2, 1], ["v5", "rawvalues"], ""⟩

def pattern_BTrDB_AlignedWindows_0 : Pattern := ⟨1, [2, 0, 2, 1], ["v5", "alignedwindows"], ""⟩

def pattern_BTrDB_Windows_0 : Pattern := ⟨1, [2, 0, 2, 1], ["v5", "windows"], ""⟩

def pattern_BTrDB_StreamInfo_0 : Pattern := ⟨1, [2, 0, 2, 1], ["v5", "streaminfo"], ""⟩

def pattern_BTrDB_SetStreamAnnotations_0 : Pattern :=
  ⟨1, [2, 0, 2, 1], ["v5", "setstreamannotations"], ""⟩

def pattern_BTrDB_SetStreamTags_0 : Pattern := ⟨1, [2, 0, 2, 1], ["v5", "setstreamtags"], ""⟩

def pattern_BTrDB_Create_0 : Pattern := ⟨1, [2, 0, 2, 1], ["v5", "create"], ""⟩

def pattern_BTrDB_ListCollections_0 : Pattern :=
  ⟨1, [2, 0, 2, 1], ["v5", "listcollections"], ""⟩

def pattern_BTrDB_LookupStreams_0 : Pattern := ⟨1, [2, 0, 2, 1], ["v5", "lookupstreams"], ""⟩

def pattern_BTrDB_Nearest_0 : Pattern := ⟨1, [2, 0, 2, 1], ["v5", "nearest"], ""⟩

def pattern_BTrDB_Changes_0 : Pattern := ⟨1, [2, 0, 2, 1], ["v5", "changes"], ""⟩

def pattern_BTrDB_Insert_0 : Pattern := ⟨1, [2, 0, 2, 1], ["v5", "insert"], ""⟩

def pattern_BTrDB_Delete_0 : Pattern := ⟨1, [2, 0, 2, 1], ["v5", "delete"], ""⟩

def pattern_BTrDB_Info_0 : Pattern := ⟨1, [2, 0, 2, 1], ["v5", "info"], ""⟩

def pattern_BTrDB_FaultInject_0 : Pattern := ⟨1, [2, 0, 2, 1], ["v5", "faultinject"], ""⟩

def pattern_BTrDB_Flush_0 : Pattern := ⟨1, [2, 0, 2, 1], ["v5", "flush"], ""⟩

def pattern_BTrDB_Obliterate_0 : Pattern := ⟨1, [2, 0, 2, 1], ["v5", "obliterate"], ""⟩

def pattern_BTrDB_GetMetadataUsage_0 : Pattern :=
  ⟨1, [2, 0, 2, 1], ["v5", "getmetadatausage"], ""⟩

def pattern_BTrDB_GenerateCSV_0 : Pattern := ⟨1, [2, 0, 2, 1], ["v5", "generatecsv"], ""⟩

def pattern_BTrDB_SQLQuery_0 : Pattern := ⟨1, [2, 0, 2, 1], ["v5", "generatecsv"], ""⟩

/-- The pattern variable named after an operation. -/
def patternOf : Op → Pattern
  | .RawValues => pattern_BTrDB_RawValues_0
  | .AlignedWindows => pattern_BTrDB_AlignedWindows_0
  | .Windows => pattern_BTrDB_Windows_0
  | .StreamInfo => pattern_BTrDB_StreamInfo_0
  | .SetStreamAnnotations => pattern_BTrDB_SetStreamAnnotations_0
  | .SetStreamTags => pattern_BTrDB_SetStreamTags_0
  | .Create => pattern_BTrDB_Create_0
  | .ListCollections => pattern_BTrDB_ListCollections_0
  | .LookupStreams => pattern_BTrDB_LookupStreams_0
  | .Nearest => pattern_BTrDB_Nearest_0
  | .Changes => pattern_BTrDB_Changes_0
  | .Insert => pattern_BTrDB_Insert_0
  | .Delete => pattern_BTrDB_Delete_0
  | .Info => pattern_BTrDB_Info_0
  | .FaultInject => pattern_BTrDB_FaultInject_0
  | .Flush => pattern_BTrDB_Flush_0
  | .Obliterate => pattern_BTrDB_Obliterate_0
  | .GetMetadataUsage => pattern_BTrDB_GetMetadataUsage_0
  | .GenerateCSV => pattern_BTrDB_GenerateCSV_0
  | .SQLQuery => pattern_BTrDB_SQLQuery_0

/-! ## Errors, metadata and contexts -/

/-- The gRPC status codes (`google.golang.org/grpc/codes`). -/
inductive Code
  | OK | Canceled | Unknown | InvalidArgument | DeadlineExceeded | NotFound
  | AlreadyExists | PermissionDenied | ResourceExhausted | FailedPrecondition
  | Aborted | OutOfRange | Unimplemented | Internal | Unavailable | DataLoss
  | Unauthenticated
  deriving DecidableEq, Repr

/-- A non-nil Go `error` value: the sentinel `io.EOF`, a gRPC status error, or
any other error. -/
inductive GoError
  | EOF
  | status (code : Code) (msg : String)
  | other (msg : String)
  deriving DecidableEq, Repr

/-- The name of a status code, as `%s` prints it (`Code.String`). -/
def Code.String : Code → String
  | .OK => "OK"
  | .Canceled => "Canceled"
  | .Unknown => "Unknown"
  | .InvalidArgument => "InvalidArgument"
  | .DeadlineExceeded => "DeadlineExceeded"
  | .NotFound => "NotFound"
  | .AlreadyExists => "AlreadyExists"
  | .PermissionDenied => "PermissionDenied"
  | .ResourceExhausted => "ResourceExhausted"
  | .FailedPrecondition => "FailedPrecondition"
  | .Aborted => "Aborted"
  | .OutOfRange => "OutOfRange"
  | .Unimplemented => "Unimplemented"
  | .Internal => "Internal"
  | .Unavailable => "Unavailable"
  | .DataLoss => "DataLoss"
  | .Unauthenticated => "Unauthenticated"

/-- The text of `err.Error()`, as formatted by `%v`: for a status error the
code and the description, `rpc error: code = ... desc = ...`. -/
def GoError.Error : GoError → String
  | .EOF => "EOF"
  | .status c msg => "rpc error: code = " ++ c.String ++ " desc = " ++ msg
  | .other msg => msg

/-- The result of `status.Code(err)`: the code of a status error, `Unknown` for
any other error. -/
def GoError.code : GoError → Code
  | .status c _ => c
  | _ => .Unknown

/-- The call `status.Errorf(c, "%v", err)`. -/
def status.Errorf (c : Code) (err : GoError) : GoError := .status c err.Error

/-- Header or trailer metadata (`metadata.MD`). -/
abbrev MD := List (String × String)

/-- The struct `runtime.ServerMetadata`. -/
structure ServerMetadata where
  HeaderMD : MD
  TrailerMD : MD
  deriving DecidableEq, Repr

/-- A `context.Context`, recorded by the way it was derived. -/
inductive Ctx
  | background
  | request (id : Nat)
  | withCancel (parent : Ctx)
  | annotated (parent : Ctx) (md : MD)
  | withServerMetadata (parent : Ctx) (md : ServerMetadata)
  deriving DecidableEq, Repr

/-- Whether context `c` is `a` itself or was derived from `a`, so that
cancelling `a` cancels `c`. -/
def Ctx.derivedFrom (a : Ctx) : Ctx → Bool
  | .background => a = .background
  | .request id => a = .request id
  | .withCancel p => a = .withCancel p || Ctx.derivedFrom a p
  | .annotated p md => a = .annotated p md || Ctx.derivedFrom a p
  | .withServerMetadata p md => a = .withServerMetadata p md || Ctx.derivedFrom a p

/-! ## Messages -/

/-- The request message types declared for `protoReq` in the request functions. -/
inductive Schema
  | RawValuesParams
  | AlignedWindowsParams
  | WindowsParams
  | StreamInfoParams
  | SetStreamAnnotationsParams
  | SetStreamTagsParams
  | CreateParams
  | ListCollectionsParams
  | LookupStreamsParams
  | NearestParams
  | ChangesParams
  | InsertParams
  | DeleteParams
  | InfoParams
  | FaultInjectParams
  | FlushParams
  | ObliterateParams
  | MetadataUsageParams
  | GenerateCSVParams
  | SQLQueryParams
  deriving DecidableEq, Repr

/-- Modelled from the spec: the request message structs are declared in the
generated `btrdb.pb.go`, which is not among the sources.  A request value is its
message type together with the integer fields that were set (`start`, `end`,
`versionMajor`, ...); a field that was not set has the Go zero value. -/
structure ProtoReq where
  schema : Schema
  fields : List (String × Int)
  deriving DecidableEq, Repr

/-- The zero value `var protoReq T`. -/
def ProtoReq.zero (t : Schema) : ProtoReq := ⟨t, []⟩

/-- The value of an integer field, `0` when it was not set. -/
def ProtoReq.field (r : ProtoReq) (name : String) : Int :=
  match r.fields.lookup name with
  | some v => v
  | none => 0

/-- A response message (`proto.Message`), by its encoded content. -/
abbrev Msg := String

/-- A client stream `BTrDB_XClient`: what `Header()` returns, the messages that
`Recv()` delivers in order, and the error `Recv()` returns after the last
message (`io.EOF` when the stream ended normally). -/
structure ClientStream where
  header : MD
  headerErr : Option GoError
  frames : List Msg
  terminal : GoError
  deriving DecidableEq, Repr

/-- The outcome of a unary client call made with the options
`grpc.Header(&metadata.HeaderMD)` and `grpc.Trailer(&metadata.TrailerMD)`: the
returned message and error, and the metadata written through the two pointers. -/
structure UnaryReply where
  msg : Option Msg
  err : Option GoError
  header : MD
  trailer : MD
  deriving DecidableEq, Repr

/-- An implementation of the `BTrDBClient` interface.  `unary m` is the method
`m` called as `client.m(ctx, &protoReq, grpc.Header(..), grpc.Trailer(..))`;
`stream m` is the method `m` called as `client.m(ctx, &protoReq)`, returning a
client stream or an error. -/
structure BTrDBClient where
  unary : Op → Ctx → ProtoReq → UnaryReply
  stream : Op → Ctx → ProtoReq → Except GoError ClientStream

/-- An inbound `runtime.Marshaler`: `decode body v` is
`NewDecoder(body).Decode(&v)`, giving the fields of `v` afterwards and the
returned error. -/
structure Marshaler where
  decode : String → ProtoReq → List (String × Int) × Option GoError

/-- The parts of `*http.Request` the transcoder reads. -/
structure HTTPRequest where
  Method : String
  Path : String
  Body : String
  Context : Ctx

/-! ## Effects -/

/-- The two response forwarders of the gateway runtime. -/
inductive Forwarder
  | ForwardResponseStream
  | ForwardResponseMessage
  deriving DecidableEq, Repr

/-- What a handler passes to its forwarder: the response message, or the
closure `func() (proto.Message, error) { return resp.Recv() }` over a stream. -/
inductive Payload
  | message (resp : Option Msg)
  | recv (resp : Option ClientStream)
  deriving DecidableEq, Repr

/-- The observable actions of the transcoder, in program order. -/
inductive Event
  /-- The call `context.WithCancel(parent)`. -/
  | withCancel (parent : Ctx)
  /-- The goroutine started when the response writer is a `http.CloseNotifier`. -/
  | watchClose (ctx : Ctx)
  /-- The call `Decode(&protoReq)` on the request body into a message type. -/
  | decode (schema : Schema) (body : String)
  /-- The call of a backend method `client.m(ctx, &protoReq, ...)`. -/
  | call (method : Op) (ctx : Ctx) (req : ProtoReq)
  /-- The call `stream.Header()` on the stream opened by a method. -/
  | header (method : Op)
  /-- The call `runtime.HTTPError(ctx, mux, outboundMarshaler, w, req, err)`. -/
  | HTTPError (ctx : Ctx) (err : GoError)
  /-- The call of a forwarder with the response. -/
  | forward (by_ : Forwarder) (ctx : Ctx) (resp : Payload)
  /-- The deferred call `cancel()` of the context made by `withCancel`. -/
  | cancel (ctx : Ctx)
  deriving DecidableEq, Repr

/-- The backend methods called in a trace, in order. -/
def calls : List Event → List (Op × Ctx × ProtoReq)
  | [] => []
  | .call m c r :: es => (m, c, r) :: calls es
  | _ :: es => calls es

/-- The errors written with `runtime.HTTPError` in a trace, in order. -/
def httpErrors : List Event → List GoError
  | [] => []
  | .HTTPError _ e :: es => e :: httpErrors es
  | _ :: es => httpErrors es

/-- The forwarder calls in a trace, in order. -/
def forwards : List Event → List (Forwarder × Payload)
  | [] => []
  | .forward f _ p :: es => (f, p) :: forwards es
  | _ :: es => forwards es

/-- The message types decoded into in a trace, in order. -/
def decodes : List Event → List Schema
  | [] => []
  | .decode t _ :: es => t :: decodes es
  | _ :: es => decodes es

/-! ## Request functions -/

/-- The outcome of the guard `err != nil && err != io.EOF` on the error returned
by `Decode`: the error to reject the body with, if any. -/
def decodeFailure : Option GoError → Option GoError
  | none => none
  | some err => if err = GoError.EOF then none else some err

/-- What a streaming request function returns, with the effects it had. -/
structure StreamResult where
  resp : Option ClientStream
  md : ServerMetadata
  err : Option GoError
  events : List Event

/-- What a unary request function returns, with the effects it had. -/
structure UnaryResult where
  resp : Option Msg
  md : ServerMetadata
  err : Option GoError
  events : List Event

/-- The body shared by the request functions of the server-streaming methods,
for the message type `t` of `protoReq` and the client method `m` it calls:
decode the body, open the stream, read its header. -/
def streamRequest (t : Schema) (m : Op) (ctx : Ctx) (marshaler : Marshaler)
    (client : BTrDBClient) (req : HTTPRequest) : StreamResult :=
  let metadata : ServerMetadata := ⟨[], []⟩
  let d := marshaler.decode req.Body (ProtoReq.zero t)
  let protoReq : ProtoReq := ⟨t, d.1⟩
  match decodeFailure d.2 with
  | some err =>
    ⟨none, metadata, some (status.Errorf .InvalidArgument err), [.decode t req.Body]⟩
  | none =>
    match client.stream m ctx protoReq with
    | .error err =>
      ⟨none, metadata, some err, [.decode t req.Body, .call m ctx protoReq]⟩
    | .ok stream =>
      match stream.headerErr with
      | some err =>
        ⟨none, metadata, some err, [.decode t req.Body, .call m ctx protoReq, .header m]⟩
      | none =>
        ⟨some stream, ⟨stream.header, metadata.TrailerMD⟩, none,
          [.decode t req.Body, .call m ctx protoReq, .header m]⟩

/-- The body shared by the request functions of the unary methods, for the
message type `t` of `protoReq` and the client method `m` it calls: decode the
body, call the method, return its message, metadata and error as they are. -/
def unaryRequest (t : Schema) (m : Op) (ctx : Ctx) (marshaler : Marshaler)
    (client : BTrDBClient) (req : HTTPRequest) : UnaryResult :=
  let metadata : ServerMetadata := ⟨[], []⟩
  let d := marshaler.decode req.Body (ProtoReq.zero t)
  let protoReq : ProtoReq := ⟨t, d.1⟩
  match decodeFailure d.2 with
  | some err =>
    ⟨none, metadata, some (status.Errorf .InvalidArgument err), [.decode t req.Body]⟩
  | none =>
    let r := client.unary m ctx protoReq
    ⟨r.msg, ⟨r.header, r.trailer⟩, r.err, [.decode t req.Body, .call m ctx protoReq]⟩

def request_BTrDB_RawValues_0 := streamRequest .RawValuesParams .RawValues

def request_BTrDB_AlignedWindows_0 := streamRequest .AlignedWindowsParams .AlignedWindows

def request_BTrDB_Windows_0 := streamRequest .WindowsParams .Windows

def request_BTrDB_StreamInfo_0 := unaryRequest .StreamInfoParams .StreamInfo

def request_BTrDB_SetStreamAnnotations_0 := unaryRequest .SetStreamAnnotationsParams .SetStreamAnnotations

def request_BTrDB_SetStreamTags_0 := unaryRequest .SetStreamTagsParams .SetStreamTags

def request_BTrDB_Create_0 := unaryRequest .CreateParams .Create

def request_BTrDB_ListCollections_0 := streamRequest .ListCollectionsParams .ListCollections

def request_BTrDB_LookupStreams_0 := streamRequest .LookupStreamsParams .LookupStreams

def request_BTrDB_Nearest_0 := unaryRequest .NearestParams .Nearest

def request_BTrDB_Changes_0 := streamRequest .ChangesParams .Changes

def request_BTrDB_Insert_0 := unaryRequest .InsertParams .Insert

def request_BTrDB_Delete_0 := unaryRequest .DeleteParams .Delete

def request_BTrDB_Info_0 := unaryRequest .InfoParams .Info

def request_BTrDB_FaultInject_0 := unaryRequest .FaultInjectParams .FaultInject

def request_BTrDB_Flush_0 := unaryRequest .FlushParams .Flush

def request_BTrDB_Obliterate_0 := unaryRequest .ObliterateParams .Obliterate

def request_BTrDB_GetMetadataUsage_0 := unaryRequest .MetadataUsageParams .GetMetadataUsage

def request_BTrDB_GenerateCSV_0 := streamRequest .GenerateCSVParams .GenerateCSV

def request_BTrDB_SQLQuery_0 := streamRequest .SQLQueryParams .SQLQuery

/-! ## Forwarders -/

def forward_BTrDB_RawValues_0 : Forwarder := .ForwardResponseStream

def forward_BTrDB_AlignedWindows_0 : Forwarder := .ForwardResponseStream

def forward_BTrDB_Windows_0 : Forwarder := .ForwardResponseStream

def forward_BTrDB_StreamInfo_0 : Forwarder := .ForwardResponseMessage

def forward_BTrDB_SetStreamAnnotations_0 : Forwarder := .ForwardResponseMessage

def forward_BTrDB_SetStreamTags_0 : Forwarder := .ForwardResponseMessage

def forward_BTrDB_Create_0 : Forwarder := .ForwardResponseMessage

def forward_BTrDB_ListCollections_0 : Forwarder := .ForwardResponseStream

def forward_BTrDB_LookupStreams_0 : Forwarder := .ForwardResponseStream

def forward_BTrDB_Nearest_0 : Forwarder := .ForwardResponseMessage

def forward_BTrDB_Changes_0 : Forwarder := .ForwardResponseStream

def forward_BTrDB_Insert_0 : Forwarder := .ForwardResponseMessage

def forward_BTrDB_Delete_0 : Forwarder := .ForwardResponseMessage

def forward_BTrDB_Info_0 : Forwarder := .ForwardResponseMessage

def forward_BTrDB_FaultInject_0 : Forwarder := .ForwardResponseMessage

def forward_BTrDB_Flush_0 : Forwarder := .ForwardResponseMessage

def forward_BTrDB_Obliterate_0 : Forwarder := .ForwardResponseMessage

def forward_BTrDB_GetMetadataUsage_0 : Forwarder := .ForwardResponseMessage

def forward_BTrDB_GenerateCSV_0 : Forwarder := .ForwardResponseStream

def forward_BTrDB_SQLQuery_0 : Forwarder := .ForwardResponseStream

/-- The forwarder variable named after an operation. -/
def forwardOf : Op → Forwarder
  | .RawValues => forward_BTrDB_RawValues_0
  | .AlignedWindows => forward_BTrDB_AlignedWindows_0
  | .Windows => forward_BTrDB_Windows_0
  | .StreamInfo => forward_BTrDB_StreamInfo_0
  | .SetStreamAnnotations => forward_BTrDB_SetStreamAnnotations_0
  | .SetStreamTags => forward_BTrDB_SetStreamTags_0
  | .Create => forward_BTrDB_Create_0
  | .ListCollections => forward_BTrDB_ListCollections_0
  | .LookupStreams => forward_BTrDB_LookupStreams_0
  | .Nearest => forward_BTrDB_Nearest_0
  | .Changes => forward_BTrDB_Changes_0
  | .Insert => forward_BTrDB_Insert_0
  | .Delete => forward_BTrDB_Delete_0
  | .Info => forward_BTrDB_Info_0
  | .FaultInject => forward_BTrDB_FaultInject_0
  | .Flush => forward_BTrDB_Flush_0
  | .Obliterate => forward_BTrDB_Obliterate_0
  | .GetMetadataUsage => forward_BTrDB_GetMetadataUsage_0
  | .GenerateCSV => forward_BTrDB_GenerateCSV_0
  | .SQLQuery => forward_BTrDB_SQLQuery_0

/-! ## Handlers -/

/-- The parts of `*runtime.ServeMux` the handlers use: the inbound marshaler
chosen by `runtime.MarshalerForRequest(mux, req)`, and
`runtime.AnnotateContext(ctx, mux, req)`, which either fails or derives from
`ctx` a context carrying the request metadata. -/
structure ServeMux where
  inbound : HTTPRequest → Marshaler
  annotate : Ctx → HTTPRequest → Except GoError MD

/-- The part of `http.ResponseWriter` the handlers inspect: whether it
implements `http.CloseNotifier`. -/
structure ResponseWriter where
  closeNotifier : Bool

/-- A handler closure, as the trace of effects of serving one request. -/
abbrev HandlerFunc := ResponseWriter → HTTPRequest → List Event

/-- The handler closure of a server-streaming method, for its request function
and its forwarder variable.  The deferred `cancel()` runs last on every path. -/
def streamHandler (request : Ctx → Marshaler → BTrDBClient → HTTPRequest → StreamResult)
    (forward : Forwarder) (mux : ServeMux) (client : BTrDBClient) : HandlerFunc :=
  fun w req =>
    let ctx := Ctx.withCancel req.Context
    let watch := if w.closeNotifier then [Event.watchClose ctx] else []
    let body :=
      match mux.annotate ctx req with
      | .error err => [Event.HTTPError ctx err]
      | .ok md =>
        let rctx := Ctx.annotated ctx md
        let r := request rctx (mux.inbound req) client req
        let ctx2 := Ctx.withServerMetadata ctx r.md
        match r.err with
        | some err => r.events ++ [Event.HTTPError ctx2 err]
        | none => r.events ++ [Event.forward forward ctx2 (.recv r.resp)]
    [Event.withCancel req.Context] ++ watch ++ body ++ [Event.cancel ctx]

/-- The handler closure of a unary method, for its request function and its
forwarder variable.  The deferred `cancel()` runs last on every path. -/
def unaryHandler (request : Ctx → Marshaler → BTrDBClient → HTTPRequest → UnaryResult)
    (forward : Forwarder) (mux : ServeMux) (client : BTrDBClient) : HandlerFunc :=
  fun w req =>
    let ctx := Ctx.withCancel req.Context
    let watch := if w.closeNotifier then [Event.watchClose ctx] else []
    let body :=
      match mux.annotate ctx req with
      | .error err => [Event.HTTPError ctx err]
      | .ok md =>
        let rctx := Ctx.annotated ctx md
        let r := request rctx (mux.inbound req) client req
        let ctx2 := Ctx.withServerMetadata ctx r.md
        match r.err with
        | some err => r.events ++ [Event.HTTPError ctx2 err]
        | none => r.events ++ [Event.forward forward ctx2 (.message r.resp)]
    [Event.withCancel req.Context] ++ watch ++ body ++ [Event.cancel ctx]

/-- The closure passed to `mux.Handle` together with the pattern variable of an
operation. -/
def handlerOf : Op → ServeMux → BTrDBClient → HandlerFunc
  | .RawValues => streamHandler request_BTrDB_RawValues_0 forward_BTrDB_RawValues_0
  | .AlignedWindows => streamHandler request_BTrDB_AlignedWindows_0 forward_BTrDB_AlignedWindows_0
  | .Windows => streamHandler request_BTrDB_Windows_0 forward_BTrDB_Windows_0
  | .StreamInfo => unaryHandler request_BTrDB_StreamInfo_0 forward_BTrDB_StreamInfo_0
  | .SetStreamAnnotations => unaryHandler request_BTrDB_SetStreamAnnotations_0 forward_BTrDB_SetStreamAnnotations_0
  | .SetStreamTags => unaryHandler request_BTrDB_SetStreamTags_0 forward_BTrDB_SetStreamTags_0
  | .Create => unaryHandler request_BTrDB_Create_0 forward_BTrDB_Create_0
  | .ListCollections => streamHandler request_BTrDB_ListCollections_0 forward_BTrDB_ListCollections_0
  | .LookupStreams => streamHandler request_BTrDB_LookupStreams_0 forward_BTrDB_LookupStreams_0
  | .Nearest => unaryHandler request_BTrDB_Nearest_0 forward_BTrDB_Nearest_0
  | .Changes => streamHandler request_BTrDB_Changes_0 forward_BTrDB_Changes_0
  | .Insert => unaryHandler request_BTrDB_Insert_0 forward_BTrDB_Insert_0
  | .Delete => unaryHandler request_BTrDB_Delete_0 forward_BTrDB_Delete_0
  | .Info => unaryHandler request_BTrDB_Info_0 forward_BTrDB_Info_0
  | .FaultInject => unaryHandler request_BTrDB_FaultInject_0 forward_BTrDB_FaultInject_0
  | .Flush => unaryHandler request_BTrDB_Flush_0 forward_BTrDB_Flush_0
  | .Obliterate => unaryHandler request_BTrDB_Obliterate_0 forward_BTrDB_Obliterate_0
  | .GetMetadataUsage => unaryHandler request_BTrDB_GetMetadataUsage_0 forward_BTrDB_GetMetadataUsage_0
  | .GenerateCSV => streamHandler request_BTrDB_GenerateCSV_0 forward_BTrDB_GenerateCSV_0
  | .SQLQuery => streamHandler request_BTrDB_SQLQuery_0 forward_BTrDB_SQLQuery_0

/-- One call `mux.Handle(meth, pat, h)`. -/
structure Registration where
  meth : String
  pat : Pattern
  h : HandlerFunc

/-- The calls of `mux.Handle` made by `RegisterBTrDBHandlerClient(ctx, mux, client)`,
in order, and the error it returns. -/
def RegisterBTrDBHandlerClient (_ctx : Ctx) (mux : ServeMux) (client : BTrDBClient) :
    List Registration × Option GoError :=
  ([
    ⟨"POST", pattern_BTrDB_RawValues_0, handlerOf .RawValues mux client⟩,
    ⟨"POST", pattern_BTrDB_AlignedWindows_0, handlerOf .AlignedWindows mux client⟩,
    ⟨"POST", pattern_BTrDB_Windows_0, handlerOf .Windows mux client⟩,
    ⟨"POST", pattern_BTrDB_StreamInfo_0, handlerOf .StreamInfo mux client⟩,
    ⟨"POST", pattern_BTrDB_SetStreamAnnotations_0, handlerOf .SetStreamAnnotations mux client⟩,
    ⟨"POST", pattern_BTrDB_SetStreamTags_0, handlerOf .SetStreamTags mux client⟩,
    ⟨"POST", pattern_BTrDB_Create_0, handlerOf .Create mux client⟩,
    ⟨"POST", pattern_BTrDB_ListCollections_0, handlerOf .ListCollections mux client⟩,
    ⟨"POST", pattern_BTrDB_LookupStreams_0, handlerOf .LookupStreams mux client⟩,
    ⟨"POST", pattern_BTrDB_Nearest_0, handlerOf .Nearest mux client⟩,
    ⟨"POST", pattern_BTrDB_Changes_0, handlerOf .Changes mux client⟩,
    ⟨"POST", pattern_BTrDB_Insert_0, handlerOf .Insert mux client⟩,
    ⟨"POST", pattern_BTrDB_Delete_0, handlerOf .Delete mux client⟩,
    ⟨"POST", pattern_BTrDB_Info_0, handlerOf .Info mux client⟩,
    ⟨"POST", pattern_BTrDB_FaultInject_0, handlerOf .FaultInject mux client⟩,
    ⟨"POST", pattern_BTrDB_Flush_0, handlerOf .Flush mux client⟩,
    ⟨"POST", pattern_BTrDB_Obliterate_0, handlerOf .Obliterate mux client⟩,
    ⟨"POST", pattern_BTrDB_GetMetadataUsage_0, handlerOf .GetMetadataUsage mux client⟩,
    ⟨"POST", pattern_BTrDB_GenerateCSV_0, handlerOf .GenerateCSV mux client⟩,
    ⟨"POST", pattern_BTrDB_SQLQuery_0, handlerOf .SQLQuery mux client⟩],
   none)

/-! ## Views used to state properties over all operations -/

/-- The request message type of a method: the type of the second parameter of
the method in the `BTrDBClient` interface, which is the type each request
function declares for `protoReq`. -/
def Op.params : Op → Schema
  | .RawValues => .RawValuesParams
  | .AlignedWindows => .AlignedWindowsParams
  | .Windows => .WindowsParams
  | .StreamInfo => .StreamInfoParams
  | .SetStreamAnnotations => .SetStreamAnnotationsParams
  | .SetStreamTags => .SetStreamTagsParams
  | .Create => .CreateParams
  | .ListCollections => .ListCollectionsParams
  | .LookupStreams => .LookupStreamsParams
  | .Nearest => .NearestParams
  | .Changes => .ChangesParams
  | .Insert => .InsertParams
  | .Delete => .DeleteParams
  | .Info => .InfoParams
  | .FaultInject => .FaultInjectParams
  | .Flush => .FlushParams
  | .Obliterate => .ObliterateParams
  | .GetMetadataUsage => .MetadataUsageParams
  | .GenerateCSV => .GenerateCSVParams
  | .SQLQuery => .SQLQueryParams

/-- Whether the value handed over is a nil response. -/
def Payload.isNil : Payload → Bool
  | .message none => true
  | .recv none => true
  | _ => false

/-- The result of a request function of either kind. -/
structure RequestResult where
  resp : Payload
  md : ServerMetadata
  err : Option GoError
  events : List Event

/-- A streaming result, as a result of either kind. -/
def StreamResult.toResult (r : StreamResult) : RequestResult :=
  ⟨.recv r.resp, r.md, r.err, r.events⟩

/-- A unary result, as a result of either kind. -/
def UnaryResult.toResult (r : UnaryResult) : RequestResult :=
  ⟨.message r.resp, r.md, r.err, r.events⟩

/-- The request function named after an operation. -/
def requestOf : Op → Ctx → Marshaler → BTrDBClient → HTTPRequest → RequestResult
  | .RawValues => fun ctx marshaler client req => (request_BTrDB_RawValues_0 ctx marshaler client req).toResult
  | .AlignedWindows => fun ctx marshaler client req => (request_BTrDB_AlignedWindows_0 ctx marshaler client req).toResult
  | .Windows => fun ctx marshaler client req => (request_BTrDB_Windows_0 ctx marshaler client req).toResult
  | .StreamInfo => fun ctx marshaler client req => (request_BTrDB_StreamInfo_0 ctx marshaler client req).toResult
  | .SetStreamAnnotations => fun ctx marshaler client req => (request_BTrDB_SetStreamAnnotations_0 ctx marshaler client req).toResult
  | .SetStreamTags => fun ctx marshaler client req => (request_BTrDB_SetStreamTags_0 ctx marshaler client req).toResult
  | .Create => fun ctx marshaler client req => (request_BTrDB_Create_0 ctx marshaler client req).toResult
  | .ListCollections => fun ctx marshaler client req => (request_BTrDB_ListCollections_0 ctx marshaler client req).toResult
  | .LookupStreams => fun ctx marshaler client req => (request_BTrDB_LookupStreams_0 ctx marshaler client req).toResult
  | .Nearest => fun ctx marshaler client req => (request_BTrDB_Nearest_0 ctx marshaler client req).toResult
  | .Changes => fun ctx marshaler client req => (request_BTrDB_Changes_0 ctx marshaler client req).toResult
  | .Insert => fun ctx marshaler client req => (request_BTrDB_Insert_0 ctx marshaler client req).toResult
  | .Delete => fun ctx marshaler client req => (request_BTrDB_Delete_0 ctx marshaler client req).toResult
  | .Info => fun ctx marshaler client req => (request_BTrDB_Info_0 ctx marshaler client req).toResult
  | .FaultInject => fun ctx marshaler client req => (request_BTrDB_FaultInject_0 ctx marshaler client req).toResult
  | .Flush => fun ctx marshaler client req => (request_BTrDB_Flush_0 ctx marshaler client req).toResult
  | .Obliterate => fun ctx marshaler client req => (request_BTrDB_Obliterate_0 ctx marshaler client req).toResult
  | .GetMetadataUsage => fun ctx marshaler client req => (request_BTrDB_GetMetadataUsage_0 ctx marshaler client req).toResult
  | .GenerateCSV => fun ctx marshaler client req => (request_BTrDB_GenerateCSV_0 ctx marshaler client req).toResult
  | .SQLQuery => fun ctx marshaler client req => (request_BTrDB_SQLQuery_0 ctx marshaler client req).toResult

/-- The operations the service contract lists as server-streaming. -/
def specStreamingOps : List Op :=
  [.RawValues, .AlignedWindows, .Windows, .ListCollections, .LookupStreams, .Changes,
   .GenerateCSV, .SQLQuery]

/-- The operations the service contract lists as unary. -/
def specUnaryOps : List Op :=
  [.Create, .StreamInfo, .SetStreamTags, .SetStreamAnnotations, .Nearest, .Info, .Flush,
   .Obliterate, .FaultInject, .GetMetadataUsage, .Insert, .Delete]

/-- The operations whose request carries a time range. -/
def rangeOps : List Op := [.RawValues, .AlignedWindows, .Windows, .Delete]

/-- A time range is bad when `end <= start`. -/
def badRange (r : ProtoReq) : Bool := decide (r.field "end" ≤ r.field "start")

/-- The context a handler makes for a request: `context.WithCancel(req.Context())`. -/
def handlerCtx (req : HTTPRequest) : Ctx := .withCancel req.Context

/-- The request value a request function passes to the backend: the zero value
of the message type of the operation, with the fields the decoder wrote. -/
def decoded (X : Op) (marshaler : Marshaler) (req : HTTPRequest) : ProtoReq :=
  ⟨X.params, (marshaler.decode req.Body (ProtoReq.zero X.params)).1⟩

/-- The error returned by decoding the body into the message type of an
operation. -/
def decodeErr (X : Op) (marshaler : Marshaler) (req : HTTPRequest) : Option GoError :=
  (marshaler.decode req.Body (ProtoReq.zero X.params)).2

/-- The events every handler starts with: the cancellable context made from the
context of the request, and the goroutine watching for a closed connection. -/
def prologue (w : ResponseWriter) (req : HTTPRequest) : List Event :=
  [Event.withCancel req.Context]
    ++ (if w.closeNotifier then [Event.watchClose (handlerCtx req)] else [])

/-! ## Sample collaborators -/

/-- A decoder: an empty body is `io.EOF`, the body `not json` is malformed, the
body `range` sets `start = 10` and `end = 5`, any other body sets nothing. -/
def sampleMarshaler : Marshaler where
  decode := fun body v =>
    if body = "" then (v.fields, some .EOF)
    else if body = "not json" then (v.fields, some (.other "invalid character"))
    else if body = "range" then ([("start", 10), ("end", 5)], none)
    else (v.fields, none)

/-- A mux whose context annotation succeeds with no metadata. -/
def sampleMux : ServeMux where
  inbound := fun _ => sampleMarshaler
  annotate := fun _ _ => .ok []

/-- A backend that answers every unary call with a message and opens a stream
of two frames for every streaming call. -/
def sampleClient : BTrDBClient where
  unary := fun _ _ _ => ⟨some "reply", none, [], []⟩
  stream := fun _ _ _ => .ok ⟨[], none, ["frame0", "frame1"], .EOF⟩

/-- A backend that fails every call, returning a message alongside the error of
a unary call. -/
def failingClient : BTrDBClient where
  unary := fun _ _ _ => ⟨some "partial", some (.status .NotFound "no such stream"), [], []⟩
  stream := fun _ _ _ => .error (.status .Unavailable "backend down")

/-- A backend whose streams open and deliver one frame, after which `Recv` fails
with an `Internal` status. -/
def brokenStreamClient : BTrDBClient where
  unary := fun _ _ _ => ⟨some "reply", none, [], []⟩
  stream := fun _ _ _ => .ok ⟨[], none, ["frame0"], .status .Internal "read failed"⟩

/-- A response writer that implements `http.CloseNotifier`. -/
def sampleWriter : ResponseWriter := ⟨true⟩

/-- A request with an arbitrary well-formed body. -/
def sampleRequest : HTTPRequest := ⟨"POST", "/v5/generatecsv", "body", .request 0⟩

/-- A request whose body decodes to a range with `end <= start`. -/
def badRangeRequest : HTTPRequest := ⟨"POST", "/v5/rawvalues", "range", .request 1⟩

/-- A request whose body is malformed. -/
def malformedRequest : HTTPRequest := ⟨"POST", "/v5/insert", "not json", .request 2⟩

/-! ## Registration from an endpoint -/

/-- A `*grpc.ClientConn`: the target it was dialled to, and the error its
`Close()` returns. -/
structure ClientConn where
  target : String
  closeErr : Option GoError
  deriving DecidableEq, Repr

/-- A `grpc.DialOption`, by name. -/
abbrev DialOption := String

/-- The functions of other packages used to register from an endpoint:
`grpc.Dial(endpoint, opts...)` and the constructor `NewBTrDBClient(conn)` of the
generated client. -/
structure Grpc where
  Dial : String → List DialOption → Except GoError ClientConn
  NewBTrDBClient : ClientConn → BTrDBClient

/-- The actions on the dialled connection, in program order. -/
inductive ConnEvent
  /-- The call `conn.Close()`. -/
  | Close (conn : ClientConn)
  /-- The call `grpclog.Infof("Failed to close conn to %s: %v", endpoint, cerr)`. -/
  | Infof (endpoint : String) (cerr : GoError)
  /-- The statement `go func() { <-ctx.Done(); ... conn.Close() ... }()`. -/
  | goCloseWhenDone (ctx : Ctx) (conn : ClientConn)
  deriving DecidableEq, Repr

/-- The statement `if cerr := conn.Close(); cerr != nil { grpclog.Infof(...) }`. -/
def closeConn (endpoint : String) (conn : ClientConn) : List ConnEvent :=
  match conn.closeErr with
  | some cerr => [.Close conn, .Infof endpoint cerr]
  | none => [.Close conn]

/-- The function `RegisterBTrDBHandler(ctx, mux, conn)`. -/
def RegisterBTrDBHandler (g : Grpc) (ctx : Ctx) (mux : ServeMux) (conn : ClientConn) :
    List Registration × Option GoError :=
  RegisterBTrDBHandlerClient ctx mux (g.NewBTrDBClient conn)

/-- What `RegisterBTrDBHandlerFromEndpoint` returns and does: the returned
error, the calls of `mux.Handle` it made, and the actions of its deferred
function on the connection. -/
structure EndpointResult where
  err : Option GoError
  registered : List Registration
  deferred : List ConnEvent

/-- The function `RegisterBTrDBHandlerFromEndpoint(ctx, mux, endpoint, opts)`.
When dialling fails it returns the error before the `defer` statement.
Otherwise the deferred function reads the named result `err`: when it is not
nil the connection is closed at once, when it is nil a goroutine is started
that closes the connection once `ctx` is done. -/
def RegisterBTrDBHandlerFromEndpoint (g : Grpc) (ctx : Ctx) (mux : ServeMux)
    (endpoint : String) (opts : List DialOption) : EndpointResult :=
  match g.Dial endpoint opts with
  | .error err => ⟨some err, [], []⟩
  | .ok conn =>
    let r := RegisterBTrDBHandler g ctx mux conn
    match r.2 with
    | some err => ⟨some err, r.1, closeConn endpoint conn⟩
    | none => ⟨none, r.1, [.goCloseWhenDone ctx conn]⟩

/-- The state the closing goroutine runs in: the contexts that have been
cancelled, the contexts of the RPCs in flight on the connection, and the
actions taken on the connection so far. -/
structure ConnWorld where
  cancelled : List Ctx
  inflight : List Ctx
  actions : List ConnEvent
  deriving DecidableEq, Repr

/-- Whether a context is done: it, or a context it was derived from, has been
cancelled. -/
def ConnWorld.isDone (s : ConnWorld) (c : Ctx) : Bool :=
  s.cancelled.any fun a => Ctx.derivedFrom a c

/-- Whether `conn.Close()` has been called. -/
def ConnWorld.isClosed (s : ConnWorld) (conn : ClientConn) : Bool :=
  decide (ConnEvent.Close conn ∈ s.actions)

/-- The goroutine `<-ctx.Done(); if cerr := conn.Close(); cerr != nil { ... }`
started by `goCloseWhenDone`: it blocks (`none`) while `ctx` is not done, and
once `ctx` is done it closes the connection. -/
def closeWhenDone (endpoint : String) (ctx : Ctx) (conn : ClientConn) (s : ConnWorld) :
    Option ConnWorld :=
  if s.isDone ctx then some { s with actions := s.actions ++ closeConn endpoint conn }
  else none

/-- A library whose dial succeeds, with a connection that closes cleanly. -/
def sampleGrpc : Grpc where
  Dial := fun endpoint _ => .ok ⟨endpoint, none⟩
  NewBTrDBClient := fun _ => sampleClient

/-- A library whose dial fails. -/
def failingGrpc : Grpc where
  Dial := fun _ _ => .error (.other "connection refused")
  NewBTrDBClient := fun _ => sampleClient

/-- A registration context that can be cancelled. -/
def serverCtx : Ctx := .withCancel .background

/-- The context of an RPC made by a handler serving request `0`. -/
def rpcCtx : Ctx := .annotated (.withCancel (.request 0)) []

/-- A state in which the registration context has been cancelled while one RPC,
whose context has not been cancelled, is in flight. -/
def shutdownWorld : ConnWorld := ⟨[serverCtx], [rpcCtx], []⟩


/-! ## The database service behind the client library

The integration tests drive a running service through the client library;
neither is among the sources.  The service is modelled from its contract. -/

namespace Store

/-- A stream identifier: the 128-bit UUID, as a number. -/
abbrev UUID := Nat

/-- Modelled from the spec: the domain error codes of the service (the package
`bte` is not among the sources), by the names the contract gives them. -/
inductive BTE
  | SameStream
  | StreamExists
  | NoSuchStream
  | AnnotationVersionMismatch
  | InvalidTimeRange
  | ObliterateDisabled
  deriving DecidableEq, Repr

/-- A coded error: the pair `(code, message)` carried by a failed operation. -/
structure CodedError where
  Code : BTE
  Msg : String
  deriving DecidableEq, Repr

/-- The outcome of a unary operation. -/
inductive Result (α : Type)
  | ok (val : α)
  | error (err : CodedError)
  deriving DecidableEq, Repr

/-- A raw point `(time, value)`: the time in nanoseconds, which may be negative,
and the value, both as integers (the value stands for the bits of the float). -/
structure RawPoint where
  Time : Int
  Value : Int
  deriving DecidableEq, Repr

/-- A half-open interval `[Start, End)` of time. -/
structure ChangedRange where
  Start : Int
  End : Int
  deriving DecidableEq, Repr

/-- A tag or annotation map: keys with optional string values. -/
abbrev KV := List (String × Option String)

/-- One data mutation of a stream: the version it produced, the timestamps it
mutated, and the points of the stream afterwards, in increasing time order. -/
structure Commit where
  version : Nat
  changed : List Int
  points : List RawPoint
  deriving DecidableEq, Repr

/-- Modelled from the spec: a stream (section 3 of the contract), with the
history of its data mutations, newest first. -/
structure Stream where
  uuid : UUID
  collection : String
  tags : KV
  annotations : KV
  annVersion : Nat
  commits : List Commit
  deriving DecidableEq, Repr

/-- Modelled from the spec: the state of the service, the live streams and the
UUIDs retired by obliteration. -/
structure DB where
  streams : List Stream
  retired : List UUID
  deriving DecidableEq, Repr

/-- The sentinel version that means the latest version. -/
def LatestVersion : Nat := 0

/-- The data version of a stream: `10` when fresh, then the version of its last
mutation. -/
def Stream.version (s : Stream) : Nat :=
  match s.commits with
  | [] => 10
  | c :: _ => c.version

/-- The points of a stream at its latest version. -/
def Stream.points (s : Stream) : List RawPoint :=
  match s.commits with
  | [] => []
  | c :: _ => c.points

/-- The version a query resolves to: the sentinel, and any version later than
the latest, resolve to the latest. -/
def Stream.resolve (s : Stream) (v : Nat) : Nat :=
  if v = LatestVersion ∨ s.version < v then s.version else v

/-- The points of a stream as of a version: those of the newest mutation whose
version is not later. -/
def Stream.pointsAt (s : Stream) (v : Nat) : List RawPoint :=
  match s.commits.find? fun c => decide (c.version ≤ v) with
  | some c => c.points
  | none => []

/-- The live stream with a UUID. -/
def DB.find (db : DB) (u : UUID) : Option Stream :=
  db.streams.find? fun s => decide (s.uuid = u)

/-- Whether a UUID has ever existed: it names a live stream or was retired. -/
def DB.used (db : DB) (u : UUID) : Bool :=
  (db.streams.any fun s => decide (s.uuid = u)) || decide (u ∈ db.retired)

/-- Whether two tag maps are the same set of pairs. -/
def sameTags (a b : KV) : Bool :=
  (a.all fun kv => decide (kv ∈ b)) && (b.all fun kv => decide (kv ∈ a))

/-- The state with one stream replaced. -/
def DB.update (db : DB) (u : UUID) (f : Stream → Stream) : DB :=
  { db with streams := db.streams.map fun s => if s.uuid = u then f s else s }

/-- Modelled from the spec: `Create` fails with `SameStream` when the UUID was
used before, with `StreamExists` when a live stream has the same collection and
tag set, and otherwise adds a fresh stream. -/
def Create (db : DB) (u : UUID) (collection : String) (tags annotations : KV) : Result DB :=
  if db.used u then .error ⟨.SameStream, "a stream with that uuid exists or existed"⟩
  else if db.streams.any fun s => decide (s.collection = collection) && sameTags s.tags tags
  then .error ⟨.StreamExists, "a stream with that collection and tags exists"⟩
  else .ok { db with streams := db.streams ++ [⟨u, collection, tags, annotations, 0, []⟩] }

/-- One point put into a list kept in increasing time order: a point at an
existing timestamp is overwritten. -/
def insertPoint (p : RawPoint) : List RawPoint → List RawPoint
  | [] => [p]
  | q :: qs =>
    if p.Time < q.Time then p :: q :: qs
    else if p.Time = q.Time then p :: qs
    else q :: insertPoint p qs

/-- A batch put into a list kept in increasing time order, point by point. -/
def insertAll (batch : List RawPoint) (into : List RawPoint) : List RawPoint :=
  batch.foldl (fun acc p => insertPoint p acc) into

/-- Modelled from the spec: `Insert` of a non-empty batch is a data mutation: it
advances the data version by one and is observed by the queries that follow
(the service flushes eagerly); an empty batch changes nothing.  It returns the
version afterwards. -/
def Insert (db : DB) (u : UUID) (values : List RawPoint) : Result (Nat × DB) :=
  match db.find u with
  | none => .error ⟨.NoSuchStream, "no such stream"⟩
  | some s =>
    if values = [] then .ok (s.version, db)
    else
      .ok (s.version + 1, db.update u fun s' =>
        { s' with commits :=
            ⟨s.version + 1, values.map fun p => p.Time, insertAll values s.points⟩
              :: s'.commits })

/-- Modelled from the spec: `Flush` is a durability barrier: it fails on a
missing stream and does not advance the version. -/
def Flush (db : DB) (u : UUID) : Result DB :=
  match db.find u with
  | none => .error ⟨.NoSuchStream, "no such stream"⟩
  | some _ => .ok db

/-- Modelled from the spec: the data version of a stream, as `StreamInfo`
reports it. -/
def Version (db : DB) (u : UUID) : Result Nat :=
  match db.find u with
  | none => .error ⟨.NoSuchStream, "no such stream"⟩
  | some s => .ok s.version

/-- What a streaming query delivers: the items of its frames in order, the
version resolved at the start of the query, and the terminal error. -/
structure Frames (α : Type) where
  items : List α
  version : Nat
  err : Option CodedError
  deriving DecidableEq, Repr

/-- Modelled from the spec: `RawValues` delivers the points of the stream, as of
the resolved version, whose time lies in the half-open range `[start, stop)`,
in increasing time order. -/
def RawValues (db : DB) (u : UUID) (start stop : Int) (version : Nat) : Frames RawPoint :=
  match db.find u with
  | none => ⟨[], 0, some ⟨.NoSuchStream, "no such stream"⟩⟩
  | some s =>
    ⟨(s.pointsAt (s.resolve version)).filter fun p =>
        decide (start ≤ p.Time) && decide (p.Time < stop),
      s.resolve version, none⟩

/-- The block of width `2^resolution` that contains a time, aligned to a
multiple of that width. -/
def blockOf (resolution : Fin 65) (t : Int) : ChangedRange :=
  ⟨t / 2 ^ resolution.val * 2 ^ resolution.val,
   t / 2 ^ resolution.val * 2 ^ resolution.val + 2 ^ resolution.val⟩

/-- Whether a time lies in a half-open interval. -/
def ChangedRange.covers (r : ChangedRange) (t : Int) : Prop := r.Start ≤ t ∧ t < r.End

/-- One interval put into a list ordered by start, without repeating it. -/
def insertRange (r : ChangedRange) : List ChangedRange → List ChangedRange
  | [] => [r]
  | q :: qs =>
    if r = q then q :: qs
    else if r.Start ≤ q.Start then r :: q :: qs
    else q :: insertRange r qs

/-- Intervals that touch or overlap their successor joined into one. -/
def mergeRanges : List ChangedRange → List ChangedRange
  | [] => []
  | r :: rs =>
    match mergeRanges rs with
    | [] => [r]
    | s :: ss =>
      if s.Start ≤ r.End then ⟨min r.Start s.Start, max r.End s.End⟩ :: ss
      else r :: s :: ss

/-- The timestamps mutated after version `lo` and up to version `hi`. -/
def Stream.changedBetween (s : Stream) (lo hi : Nat) : List Int :=
  s.commits.foldr
    (fun c acc => if lo < c.version ∧ c.version ≤ hi then c.changed ++ acc else acc) []

/-- Modelled from the spec: `Changes` delivers the fewest half-open intervals,
each at least `2^resolution` wide, that cover the timestamps mutated between
the two resolved versions: none when the first is not earlier than the second. -/
def Changes (db : DB) (u : UUID) (fromVersion toVersion : Nat) (resolution : Fin 65) :
    Frames ChangedRange :=
  match db.find u with
  | none => ⟨[], 0, some ⟨.NoSuchStream, "no such stream"⟩⟩
  | some s =>
    if s.resolve toVersion ≤ s.resolve fromVersion then ⟨[], s.resolve toVersion, none⟩
    else
      ⟨mergeRanges
          (((s.changedBetween (s.resolve fromVersion) (s.resolve toVersion)).map
            (blockOf resolution)).foldr insertRange []),
        s.resolve toVersion, none⟩

/-- The least time of a batch (`0` for the empty batch). -/
def minTime : List RawPoint → Int
  | [] => 0
  | [p] => p.Time
  | p :: q :: ps => min p.Time (minTime (q :: ps))

/-- The greatest time of a batch (`0` for the empty batch). -/
def maxTime : List RawPoint → Int
  | [] => 0
  | [p] => p.Time
  | p :: q :: ps => max p.Time (maxTime (q :: ps))

/-- The batch of the tests: `n` points at the times `first, first + 1, ...`,
each with its time as value. -/
def ramp (first : Int) (n : Nat) : List RawPoint :=
  (List.range n).map fun i => ⟨first + i, first + i⟩

/-- A service with no stream. -/
def emptyDB : DB := ⟨[], []⟩

/-- The state after `Create`, when it succeeded. -/
def Result.get (r : Result DB) (fallback : DB) : DB :=
  match r with
  | .ok db => db
  | .error _ => fallback

/-- The state after `Insert`, when it succeeded. -/
def Result.state (r : Result (Nat × DB)) (fallback : DB) : DB :=
  match r with
  | .ok (_, db) => db
  | .error _ => fallback

/-- The scenario of the tests: a stream created on a service with no stream. -/
def scenarioCreated : DB :=
  (Create emptyDB 7 "test/7" [("name", some "n")] []).get emptyDB

/-- The scenario of the tests, after the insert of `100` points at `0..99`. -/
def scenarioFirst : DB := (Insert scenarioCreated 7 (ramp 0 100)).state emptyDB

/-- The scenario of the tests, after the insert of `100` points at `300..399`. -/
def scenarioSecond : DB := (Insert scenarioFirst 7 (ramp 300 100)).state emptyDB

/-- A batch whose points are not in time order. -/
def shuffledBatch : List RawPoint := [⟨5, 50⟩, ⟨-3, 30⟩, ⟨9, 90⟩]

/-- The created stream of the scenario, after the insert of the shuffled batch. -/
def scenarioShuffled : DB := (Insert scenarioCreated 7 shuffledBatch).state emptyDB

end Store


/-! ## More sample collaborators -/

/-- A mux whose context annotation fails. -/
def failingMux : ServeMux where
  inbound := fun _ => sampleMarshaler
  annotate := fun _ _ => .error (.status .InvalidArgument "invalid grpc-timeout")

/-- A request with an empty body. -/
def emptyRequest : HTTPRequest := ⟨"POST", "/v5/info", "", .request 3⟩

/-- A backend whose streams open but whose `Header()` fails. -/
def headerFailingClient : BTrDBClient where
  unary := fun _ _ _ => ⟨some "reply", none, [], []⟩
  stream := fun _ _ _ => .ok ⟨[], some (.status .Unavailable "no header"), [], .EOF⟩

/-- A backend whose streams carry one header pair. -/
def headerClient : BTrDBClient where
  unary := fun _ _ _ => ⟨some "reply", none, [("content-type", "application/grpc")], []⟩
  stream := fun _ _ _ => .ok ⟨[("content-type", "application/grpc")], none, ["frame0"], .EOF⟩

/-- The order in which the operations are said to be registered. -/
def specRegistrationOrder : List Op :=
  [.RawValues, .AlignedWindows, .Windows, .StreamInfo, .SetStreamAnnotations, .SetStreamTags,
   .Create, .ListCollections, .LookupStreams, .Nearest, .Changes, .Insert, .Delete, .Info,
   .FaultInject, .Flush, .Obliterate, .GetMetadataUsage, .GenerateCSV, .SQLQuery]


/-! ## The database service: deletion, obliteration and lookup -/

namespace Store

/-- Modelled from the spec: `Delete` removes the points whose time lies in the
half-open range `[start, stop)`.  It is synchronous: the removal is a data
mutation observed by the queries that follow, and advances the version by one;
when the range holds no point nothing changes.  It returns the version
afterwards. -/
def Delete (db : DB) (u : UUID) (start stop : Int) : Result (Nat × DB) :=
  match db.find u with
  | none => .error ⟨.NoSuchStream, "no such stream"⟩
  | some s =>
    if (s.points.filter fun p => decide (start ≤ p.Time) && decide (p.Time < stop)) = [] then
      .ok (s.version, db)
    else
      .ok (s.version + 1, db.update u fun s' =>
        { s' with commits :=
            ⟨s.version + 1,
              (s.points.filter fun p =>
                decide (start ≤ p.Time) && decide (p.Time < stop)).map fun p => p.Time,
              s.points.filter fun p =>
                !(decide (start ≤ p.Time) && decide (p.Time < stop))⟩
              :: s'.commits })

/-- Modelled from the spec: `Obliterate` retires the stream for good: it is no
longer live, and its UUID is remembered as used. -/
def Obliterate (db : DB) (u : UUID) : Result DB :=
  match db.find u with
  | none => .error ⟨.NoSuchStream, "no such stream"⟩
  | some _ => .ok ⟨db.streams.filter fun s => !decide (s.uuid = u), u :: db.retired⟩

/-- Modelled from the spec: the annotations of a live stream, with their
version. -/
def Annotations (db : DB) (u : UUID) : Result (KV × Nat) :=
  match db.find u with
  | none => .error ⟨.NoSuchStream, "no such stream"⟩
  | some s => .ok (s.annotations, s.annVersion)

/-- Whether the collection of a stream is the given name, or starts with it
when the lookup is by name start. -/
def matchesCollection (collection : String) (byStart : Bool) (s : Stream) : Bool :=
  if byStart then collection.data.isPrefixOf s.collection.data
  else decide (s.collection = collection)

/-- Whether a map holds every pair of a filter. -/
def holdsAll (filter held : KV) : Bool := filter.all fun kv => decide (kv ∈ held)

/-- Modelled from the spec: `LookupStreams` delivers the live streams whose
collection matches and whose tags and annotations hold every pair of the two
filters. -/
def LookupStreams (db : DB) (collection : String) (byStart : Bool) (tags annotations : KV) :
    Frames Stream :=
  ⟨db.streams.filter fun s =>
      matchesCollection collection byStart s && holdsAll tags s.tags
        && holdsAll annotations s.annotations,
    0, none⟩

/-- The character of a decimal digit. -/
def digitChar (n : Nat) : Char := Char.ofNat (48 + n % 10)

/-- The decimal digits of a number, most significant first. -/
def digitsOf : Nat → Nat → List Char
  | 0, _ => []
  | fuel + 1, n => if n < 10 then [digitChar n] else digitsOf fuel (n / 10) ++ [digitChar n]

/-- The format `%d`. -/
def decimal (n : Nat) : String := String.mk (digitsOf (n + 1) n)

/-- The format `%03d`, for a number below a thousand. -/
def decimal3 (n : Nat) : String :=
  String.mk [digitChar (n / 100), digitChar (n / 10), digitChar n]

/-- The collection name start of the lookup test. -/
def collectionStart : String := "ntest/0123456789abcdef"

/-- The stream the lookup test creates for collection `k` and name `i`. -/
def lookupStream (k i : Nat) : Stream :=
  ⟨1000 + 50 * k + i, collectionStart ++ "." ++ decimal3 k,
    [("name", some (decimal i)), ("unit", some (decimal k))], [], 0, []⟩

/-- The state of the lookup test: `20` collections of `50` streams each. -/
def lookupDB : DB :=
  ⟨(List.range 20).foldr (fun k acc => (List.range 50).map (lookupStream k) ++ acc) [], []⟩

/-- The scenario of the tests, after the insert of `0..99` and the deletion of
`[-100, 200)`. -/
def scenarioDeleted : DB := (Delete scenarioFirst 7 (-100) 200).state emptyDB

/-- An annotation value with characters outside ASCII. -/
def sampleAnnotation : String := "naïve ∑ 测试"

end Store


/-! ## The watcher goroutine of a handler -/

/-- The state the watcher goroutine of a handler runs in: the contexts that
have been cancelled, and whether the channel of `cn.CloseNotify()` has
delivered, which it does once the connection of the client has gone away. -/
structure WatchWorld where
  cancelled : List Ctx
  closeNotified : Bool
  deriving DecidableEq, Repr

/-- Whether a context is done: it, or a context it was derived from, has been
cancelled. -/
def WatchWorld.isDone (s : WatchWorld) (c : Ctx) : Bool :=
  s.cancelled.any fun a => Ctx.derivedFrom a c

/-- The two cases of the `select` of the watcher goroutine. -/
inductive SelectCase
  | done
  | closed
  deriving DecidableEq, Repr

/-- The goroutine `select { case <-done: case <-closed: cancel() }` started by
the event `watchClose ctx`, with `done = ctx.Done()` and
`closed = cn.CloseNotify()`.  It blocks (`none`) while neither channel is
ready.  With `done` ready alone it returns; with `closed` ready alone it calls
`cancel()`, which marks `ctx` cancelled.  With both ready `select` runs either
case: the one given as `pick`. -/
def closeWatcher (ctx : Ctx) (pick : SelectCase) (s : WatchWorld) : Option WatchWorld :=
  match s.isDone ctx, s.closeNotified, pick with
  | false, false, _ => none
  | true, false, _ => some s
  | false, true, _ => some { s with cancelled := ctx :: s.cancelled }
  | true, true, .done => some s
  | true, true, .closed => some { s with cancelled := ctx :: s.cancelled }

/-- A state in which the client of a request has gone away while nothing has
been cancelled. -/
def disconnectedWorld : WatchWorld := ⟨[], true⟩


/-! ## The database service: 64-bit times and histories of a stream -/

namespace Store

/-- The least `int64`. -/
def minInt64 : Int := -9223372036854775808

/-- The largest `int64`. -/
def maxInt64 : Int := 9223372036854775807

/-- Whether an integer is an `int64` value. -/
def isInt64 (x : Int) : Bool := decide (minInt64 ≤ x) && decide (x ≤ maxInt64)

/-- The `int64` that Go's arithmetic gives where the exact result is `x`: `x`
reduced modulo `2^64` into the range of `int64`. -/
def wrapInt64 (x : Int) : Int :=
  (x + 9223372036854775808) % 18446744073709551616 - 9223372036854775808

/-- A batch of one point, at the largest time there is. -/
def lastInstantBatch : List RawPoint := [⟨9223372036854775807, 1⟩]

/-- The created stream of the scenario, after the insert of the point at the
largest time. -/
def scenarioLastInstant : DB := (Insert scenarioCreated 7 lastInstantBatch).state emptyDB

/-- An operation on the data of one stream. -/
inductive StreamOp
  | insert (values : List RawPoint)
  | delete (start stop : Int)
  | flush
  deriving DecidableEq, Repr

/-- A history of operations on the stream `u`, each of which succeeds: the state
after the last one, and `none` when one of them fails. -/
def applyOps (u : UUID) : List StreamOp → DB → Option DB
  | [], db => some db
  | .insert values :: ops, db =>
    match Insert db u values with
    | .ok (_, db1) => applyOps u ops db1
    | .error _ => none
  | .delete start stop :: ops, db =>
    match Delete db u start stop with
    | .ok (_, db1) => applyOps u ops db1
    | .error _ => none
  | .flush :: ops, db =>
    match Flush db u with
    | .ok db1 => applyOps u ops db1
    | .error _ => none

/-- The tags of the streams of the obliteration test. -/
def oblTags : KV := [("name", some "bar")]

/-- A service on which two streams of other tests live, one of them under the
collection name start `obl.`. -/
def oblBefore : DB :=
  ⟨[⟨1, "obl.1", oblTags, [], 0, []⟩, ⟨2, "test/2", oblTags, [], 0, []⟩], []⟩

/-- The service after the stream `7` has been created under `obl.7`. -/
def oblCreated : DB := (Create oblBefore 7 "obl.7" oblTags []).get emptyDB

/-- The history of the stream `7` in the obliteration test, and a deletion. -/
def oblHistory : List StreamOp := [.insert (ramp 0 100), .flush, .delete 10 20]

/-- The service after the history of the stream `7`. -/
def oblWritten : DB := (applyOps 7 oblHistory oblCreated).getD emptyDB

/-- The service after the stream `7` has been obliterated. -/
def oblRetired : DB := (Obliterate oblWritten 7).get emptyDB

end Store


/-! ## Traces of the request functions and handlers -/

theorem calls_append (xs ys : List Event) : calls (xs ++ ys) = calls xs ++ calls ys := by
  induction xs with
  | nil => rfl
  | cons e es ih => cases e <;> simp [calls, ih]

theorem httpErrors_append (xs ys : List Event) :
    httpErrors (xs ++ ys) = httpErrors xs ++ httpErrors ys := by
  induction xs with
  | nil => rfl
  | cons e es ih => cases e <;> simp [httpErrors, ih]

theorem forwards_append (xs ys : List Event) :
    forwards (xs ++ ys) = forwards xs ++ forwards ys := by
  induction xs with
  | nil => rfl
  | cons e es ih => cases e <;> simp [forwards, ih]

theorem decodes_append (xs ys : List Event) :
    decodes (xs ++ ys) = decodes xs ++ decodes ys := by
  induction xs with
  | nil => rfl
  | cons e es ih => cases e <;> simp [decodes, ih]



theorem mem_streaming_or_unary (X : Op) : X ∈ specStreamingOps ∨ X ∈ specUnaryOps := by
  cases X <;> decide

theorem requestOf_streaming {X : Op} (h : X ∈ specStreamingOps) :
    requestOf X = fun ctx marshaler client req =>
      (streamRequest X.params X ctx marshaler client req).toResult := by
  cases X <;> first | rfl | exact absurd h (by decide)

theorem requestOf_unary {X : Op} (h : X ∈ specUnaryOps) :
    requestOf X = fun ctx marshaler client req =>
      (unaryRequest X.params X ctx marshaler client req).toResult := by
  cases X <;> first | rfl | exact absurd h (by decide)

theorem handlerOf_streaming {X : Op} (h : X ∈ specStreamingOps) :
    handlerOf X = streamHandler (streamRequest X.params X) .ForwardResponseStream := by
  cases X <;> first | rfl | exact absurd h (by decide)

theorem handlerOf_unary {X : Op} (h : X ∈ specUnaryOps) :
    handlerOf X = unaryHandler (unaryRequest X.params X) .ForwardResponseMessage := by
  cases X <;> first | rfl | exact absurd h (by decide)


/-- Every path through a handler, with the trace it leaves. -/
theorem handler_paths (X : Op) (mux : ServeMux) (client : BTrDBClient) (w : ResponseWriter)
    (req : HTTPRequest) :
    (∃ e, mux.annotate (handlerCtx req) req = .error e ∧
      handlerOf X mux client w req =
        prologue w req ++ [.HTTPError (handlerCtx req) e, .cancel (handlerCtx req)]) ∨
    (∃ md e, mux.annotate (handlerCtx req) req = .ok md ∧ decodeFailure (decodeErr X (mux.inbound req) req) = some e ∧
      handlerOf X mux client w req =
        prologue w req ++ [.decode X.params req.Body,
          .HTTPError (.withServerMetadata (handlerCtx req) ⟨[], []⟩)
            (status.Errorf .InvalidArgument e),
          .cancel (handlerCtx req)]) ∨
    (∃ md e, X ∈ specUnaryOps ∧ mux.annotate (handlerCtx req) req = .ok md ∧
      decodeFailure (decodeErr X (mux.inbound req) req) = none ∧
      (client.unary X (.annotated (handlerCtx req) md) (decoded X (mux.inbound req) req)).err = some e ∧
      handlerOf X mux client w req =
        prologue w req ++ [.decode X.params req.Body,
          .call X (.annotated (handlerCtx req) md) (decoded X (mux.inbound req) req),
          .HTTPError (.withServerMetadata (handlerCtx req)
            ⟨(client.unary X (.annotated (handlerCtx req) md) (decoded X (mux.inbound req) req)).header,
             (client.unary X (.annotated (handlerCtx req) md) (decoded X (mux.inbound req) req)).trailer⟩) e,
          .cancel (handlerCtx req)]) ∨
    (∃ md, X ∈ specUnaryOps ∧ mux.annotate (handlerCtx req) req = .ok md ∧
      decodeFailure (decodeErr X (mux.inbound req) req) = none ∧
      (client.unary X (.annotated (handlerCtx req) md) (decoded X (mux.inbound req) req)).err = none ∧
      handlerOf X mux client w req =
        prologue w req ++ [.decode X.params req.Body,
          .call X (.annotated (handlerCtx req) md) (decoded X (mux.inbound req) req),
          .forward .ForwardResponseMessage (.withServerMetadata (handlerCtx req)
            ⟨(client.unary X (.annotated (handlerCtx req) md) (decoded X (mux.inbound req) req)).header,
             (client.unary X (.annotated (handlerCtx req) md) (decoded X (mux.inbound req) req)).trailer⟩)
            (.message (client.unary X (.annotated (handlerCtx req) md) (decoded X (mux.inbound req) req)).msg),
          .cancel (handlerCtx req)]) ∨
    (∃ md e, X ∈ specStreamingOps ∧ mux.annotate (handlerCtx req) req = .ok md ∧
      decodeFailure (decodeErr X (mux.inbound req) req) = none ∧
      client.stream X (.annotated (handlerCtx req) md) (decoded X (mux.inbound req) req) = .error e ∧
      handlerOf X mux client w req =
        prologue w req ++ [.decode X.params req.Body,
          .call X (.annotated (handlerCtx req) md) (decoded X (mux.inbound req) req),
          .HTTPError (.withServerMetadata (handlerCtx req) ⟨[], []⟩) e,
          .cancel (handlerCtx req)]) ∨
    (∃ md s e, X ∈ specStreamingOps ∧ mux.annotate (handlerCtx req) req = .ok md ∧
      decodeFailure (decodeErr X (mux.inbound req) req) = none ∧
      client.stream X (.annotated (handlerCtx req) md) (decoded X (mux.inbound req) req) = .ok s ∧
      s.headerErr = some e ∧
      handlerOf X mux client w req =
        prologue w req ++ [.decode X.params req.Body,
          .call X (.annotated (handlerCtx req) md) (decoded X (mux.inbound req) req),
          .header X,
          .HTTPError (.withServerMetadata (handlerCtx req) ⟨[], []⟩) e,
          .cancel (handlerCtx req)]) ∨
    (∃ md s, X ∈ specStreamingOps ∧ mux.annotate (handlerCtx req) req = .ok md ∧
      decodeFailure (decodeErr X (mux.inbound req) req) = none ∧
      client.stream X (.annotated (handlerCtx req) md) (decoded X (mux.inbound req) req) = .ok s ∧
      s.headerErr = none ∧
      handlerOf X mux client w req =
        prologue w req ++ [.decode X.params req.Body,
          .call X (.annotated (handlerCtx req) md) (decoded X (mux.inbound req) req),
          .header X,
          .forward .ForwardResponseStream (.withServerMetadata (handlerCtx req) ⟨s.header, []⟩)
            (.recv (some s)),
          .cancel (handlerCtx req)]) := by
  cases ha : mux.annotate (handlerCtx req) req with
  | error e =>
    left
    refine ⟨e, rfl, ?_⟩
    rcases mem_streaming_or_unary X with h | h
    · rw [handlerOf_streaming h]
      simp only [handlerCtx] at ha
      simp [streamHandler, prologue, handlerCtx, ha]
    · rw [handlerOf_unary h]
      simp only [handlerCtx] at ha
      simp [unaryHandler, prologue, handlerCtx, ha]
  | ok md =>
    right
    cases hd : decodeFailure (decodeErr X (mux.inbound req) req) with
    | some e =>
      left
      refine ⟨md, e, rfl, rfl, ?_⟩
      simp only [handlerCtx] at ha
      simp only [decodeErr] at hd
      rcases mem_streaming_or_unary X with h | h
      · rw [handlerOf_streaming h]
        simp [streamHandler, streamRequest, prologue, handlerCtx, ha, hd]
      · rw [handlerOf_unary h]
        simp [unaryHandler, unaryRequest, prologue, handlerCtx, ha, hd]
    | none =>
      right
      simp only [handlerCtx] at ha
      simp only [decodeErr] at hd
      rcases mem_streaming_or_unary X with h | h
      · right; right
        rw [handlerOf_streaming h]
        cases hs : client.stream X (.annotated (handlerCtx req) md) (decoded X (mux.inbound req) req) with
        | error e =>
          left
          refine ⟨md, e, h, rfl, rfl, hs, ?_⟩
          simp only [handlerCtx, decoded] at hs
          simp [streamHandler, streamRequest, prologue, handlerCtx, decoded, ha, hd, hs]
        | ok s =>
          right
          have hs2 := hs
          simp only [handlerCtx, decoded] at hs
          cases hh : s.headerErr with
          | some e =>
            left
            refine ⟨md, s, e, h, rfl, rfl, hs2, hh, ?_⟩
            simp [streamHandler, streamRequest, prologue, handlerCtx, decoded, ha, hd, hs, hh]
          | none =>
            right
            refine ⟨md, s, h, rfl, rfl, hs2, hh, ?_⟩
            simp [streamHandler, streamRequest, prologue, handlerCtx, decoded, ha, hd, hs, hh]
      · rw [handlerOf_unary h]
        cases he : (client.unary X (.annotated (handlerCtx req) md) (decoded X (mux.inbound req) req)).err with
        | some e =>
          left
          refine ⟨md, e, h, rfl, rfl, he, ?_⟩
          simp only [handlerCtx, decoded] at he
          simp [unaryHandler, unaryRequest, prologue, handlerCtx, decoded, ha, hd, he]
        | none =>
          right; left
          refine ⟨md, h, rfl, rfl, he, ?_⟩
          simp only [handlerCtx, decoded] at he
          simp [unaryHandler, unaryRequest, prologue, handlerCtx, decoded, ha, hd, he]

theorem calls_prologue (w : ResponseWriter) (req : HTTPRequest) : calls (prologue w req) = [] := by
  unfold prologue
  cases w.closeNotifier <;> rfl

theorem httpErrors_prologue (w : ResponseWriter) (req : HTTPRequest) :
    httpErrors (prologue w req) = [] := by
  unfold prologue
  cases w.closeNotifier <;> rfl

theorem forwards_prologue (w : ResponseWriter) (req : HTTPRequest) :
    forwards (prologue w req) = [] := by
  unfold prologue
  cases w.closeNotifier <;> rfl

theorem decodes_prologue (w : ResponseWriter) (req : HTTPRequest) :
    decodes (prologue w req) = [] := by
  unfold prologue
  cases w.closeNotifier <;> rfl

theorem not_streaming_and_unary {X : Op} (h1 : X ∈ specStreamingOps) (h2 : X ∈ specUnaryOps) :
    False := by
  cases X <;> first | exact absurd h1 (by decide) | exact absurd h2 (by decide)

theorem forwardOf_streaming {X : Op} (h : X ∈ specStreamingOps) :
    forwardOf X = .ForwardResponseStream := by
  cases X <;> first | rfl | exact absurd h (by decide)

theorem forwardOf_unary {X : Op} (h : X ∈ specUnaryOps) :
    forwardOf X = .ForwardResponseMessage := by
  cases X <;> first | rfl | exact absurd h (by decide)

/-- Each handler decodes into the message type of its own operation, calls only
the backend method of its own operation, at most once, and forwards only
through its own forwarder. -/
theorem handler_wiring (X : Op) (mux : ServeMux) (client : BTrDBClient) (w : ResponseWriter)
    (req : HTTPRequest) :
    (decodes (handlerOf X mux client w req) = [] ∨
      decodes (handlerOf X mux client w req) = [X.params]) ∧
    (calls (handlerOf X mux client w req) = [] ∨
      ∃ md, calls (handlerOf X mux client w req)
        = [(X, .annotated (handlerCtx req) md, decoded X (mux.inbound req) req)]) ∧
    (forwards (handlerOf X mux client w req) = [] ∨
      ∃ p, forwards (handlerOf X mux client w req) = [(forwardOf X, p)]) := by
  rcases handler_paths X mux client w req with ⟨e, -, h⟩ | ⟨md, e, -, -, h⟩ |
    ⟨md, e, hu, -, -, -, h⟩ | ⟨md, hu, -, -, -, h⟩ | ⟨md, e, hs, -, -, -, h⟩ |
    ⟨md, s, e, hs, -, -, -, -, h⟩ | ⟨md, s, hs, -, -, -, -, h⟩
  · rw [h]
    simp only [decodes_append, decodes_prologue, calls_append, calls_prologue,
      forwards_append, forwards_prologue]
    simp [decodes, calls, forwards]
  · rw [h]
    simp only [decodes_append, decodes_prologue, calls_append, calls_prologue,
      forwards_append, forwards_prologue]
    simp [decodes, calls, forwards]
  · rw [h]
    simp only [decodes_append, decodes_prologue, calls_append, calls_prologue,
      forwards_append, forwards_prologue]
    simp [decodes, calls, forwards]
  · rw [h]
    simp only [decodes_append, decodes_prologue, calls_append, calls_prologue,
      forwards_append, forwards_prologue]
    simp [decodes, calls, forwards, forwardOf_unary hu]
  · rw [h]
    simp only [decodes_append, decodes_prologue, calls_append, calls_prologue,
      forwards_append, forwards_prologue]
    simp [decodes, calls, forwards]
  · rw [h]
    simp only [decodes_append, decodes_prologue, calls_append, calls_prologue,
      forwards_append, forwards_prologue]
    simp [decodes, calls, forwards]
  · rw [h]
    simp only [decodes_append, decodes_prologue, calls_append, calls_prologue,
      forwards_append, forwards_prologue]
    simp [decodes, calls, forwards, forwardOf_streaming hs]

/-! ## The routing table -/

/-- C1: the URL pattern of SQLQuery is the two literal segments `v5`,
`generatecsv`, so its path is `/v5/generatecsv` and not `/v5/` followed by the
lowercased method name `sqlquery`; SQLQuery is the only operation whose pattern
differs from `/v5/<lowercased method name>`. -/
theorem pattern_SQLQuery_is_not_its_lowercased_name :
    (patternOf .SQLQuery).segments = some ["v5", "generatecsv"] ∧
    (patternOf .SQLQuery).segments ≠ some ["v5", lowercase Op.SQLQuery.methodName] ∧
    (patternOf .SQLQuery).segments.map urlPath = some "/v5/generatecsv" ∧
    (Op.all.filter fun X =>
      decide ((patternOf X).segments ≠ some ["v5", lowercase X.methodName])) = [.SQLQuery] := by
  refine ⟨by decide, by decide, by decide, by decide⟩

/-- C2: the routing table is not injective: the distinct operations GenerateCSV
and SQLQuery have the same URL pattern, so the patterns registered by
`RegisterBTrDBHandlerClient` contain a duplicate; they are the only two
operations that share a pattern. -/
theorem patterns_GenerateCSV_SQLQuery_collide (ctx : Ctx) (mux : ServeMux)
    (client : BTrDBClient) :
    Op.GenerateCSV ≠ Op.SQLQuery ∧
    patternOf .GenerateCSV = patternOf .SQLQuery ∧
    ¬ Function.Injective patternOf ∧
    ¬ ((RegisterBTrDBHandlerClient ctx mux client).1.map fun r => r.pat).Nodup ∧
    (Op.all.filter fun X =>
      decide (∃ Y ∈ Op.all, Y ≠ X ∧ patternOf Y = patternOf X)) = [.GenerateCSV, .SQLQuery] := by
  refine ⟨by decide, by decide, ?_, ?_, by decide⟩
  · intro h
    exact absurd (h (show patternOf .GenerateCSV = patternOf .SQLQuery by decide)) (by decide)
  · have h : ((RegisterBTrDBHandlerClient ctx mux client).1.map fun r => r.pat)
        = Op.all.map patternOf := rfl
    rw [h]
    decide

/-- C3: two handlers are registered under the pattern of SQLQuery, which is
also the pattern of GenerateCSV.  Serving the same request, the first decodes
the body into `GenerateCSVParams` and calls the backend method GenerateCSV, the
second decodes it into `SQLQueryParams` and calls SQLQuery: under the pattern of
either operation there is a handler that calls the other one. -/
theorem generatecsv_pattern_has_two_handlers :
    patternOf .SQLQuery = patternOf .GenerateCSV ∧
    (((RegisterBTrDBHandlerClient .background sampleMux sampleClient).1.filter
        fun r => decide (r.pat = patternOf .SQLQuery)).map
        fun r => (decodes (r.h sampleWriter sampleRequest),
          (calls (r.h sampleWriter sampleRequest)).map fun c => c.1))
      = [([.GenerateCSVParams], [.GenerateCSV]), ([.SQLQueryParams], [.SQLQuery])] := by
  refine ⟨by decide, by decide⟩

/-- C7: every call of `mux.Handle` made by `RegisterBTrDBHandlerClient` names
the HTTP method POST: the twenty registrations all have the method `POST`, and
none has another method. -/
theorem all_registrations_are_POST (ctx : Ctx) (mux : ServeMux) (client : BTrDBClient) :
    ((RegisterBTrDBHandlerClient ctx mux client).1.map fun r => r.meth)
        = List.replicate 20 "POST" ∧
    ((RegisterBTrDBHandlerClient ctx mux client).1.filter
        fun r => decide (r.meth ≠ "POST")).length = 0 := by
  refine ⟨rfl, rfl⟩

/-! ## Request functions -/

/-- C4: for each of the twenty request functions, when decoding the body
returns an error other than `io.EOF`, the function returns a status error with
the code `InvalidArgument`, a nil response, and makes no backend call. -/
theorem request_rejects_undecodable_body (X : Op) (ctx : Ctx) (marshaler : Marshaler)
    (client : BTrDBClient) (req : HTTPRequest) (e : GoError)
    (hdec : decodeErr X marshaler req = some e) (hne : e ≠ GoError.EOF) :
    (requestOf X ctx marshaler client req).err = some (status.Errorf .InvalidArgument e) ∧
    (status.Errorf .InvalidArgument e).code = .InvalidArgument ∧
    (requestOf X ctx marshaler client req).resp.isNil = true ∧
    calls (requestOf X ctx marshaler client req).events = [] := by
  have hd : decodeFailure (marshaler.decode req.Body (ProtoReq.zero X.params)).2 = some e := by
    simp only [decodeErr] at hdec
    simp [decodeFailure, hdec, hne]
  rcases mem_streaming_or_unary X with h | h
  · rw [requestOf_streaming h]
    simp [streamRequest, StreamResult.toResult, hd, calls, Payload.isNil, GoError.code,
      status.Errorf]
  · rw [requestOf_unary h]
    simp [unaryRequest, UnaryResult.toResult, hd, calls, Payload.isNil, GoError.code,
      status.Errorf]

/-- Witness of C4: the Insert request function on a malformed body. -/
theorem request_rejects_undecodable_body_witness :
    decodeErr .Insert sampleMarshaler malformedRequest = some (.other "invalid character") ∧
    (requestOf .Insert .background sampleMarshaler sampleClient malformedRequest).err
      = some (.status .InvalidArgument "invalid character") ∧
    calls (requestOf .Insert .background sampleMarshaler sampleClient malformedRequest).events
      = [] :=
  ⟨by decide,
   (request_rejects_undecodable_body .Insert .background sampleMarshaler sampleClient
      malformedRequest (.other "invalid character") (by decide) (by decide)).1,
   (request_rejects_undecodable_body .Insert .background sampleMarshaler sampleClient
      malformedRequest (.other "invalid character") (by decide) (by decide)).2.2.2⟩

/-- Counterexample to C5: it is not the case that every successfully decoded
request with `end <= start` is rejected with `InvalidArgument` without a
backend call: the RawValues request function passes the range `start = 10`,
`end = 5` to the backend. -/
theorem bad_range_is_not_rejected_locally :
    ¬ ∀ X ∈ rangeOps, ∀ (ctx : Ctx) (marshaler : Marshaler) (client : BTrDBClient)
        (req : HTTPRequest),
        decodeErr X marshaler req = none → badRange (decoded X marshaler req) = true →
        (∃ msg, (requestOf X ctx marshaler client req).err
            = some (.status .InvalidArgument msg)) ∧
        calls (requestOf X ctx marshaler client req).events = [] := by
  intro h
  have h1 := (h .RawValues (by decide) .background sampleMarshaler sampleClient badRangeRequest
    (by decide) (by decide)).2
  exact absurd h1 (by decide)

/-- C5, amended: for each range-taking operation, a successfully decoded
request is passed to the backend method of the operation exactly once, as
decoded, whatever its time range; the request function produces no error of its
own: its error is the one returned by the backend call (Delete), or by opening
the stream or reading its header (RawValues, AlignedWindows, Windows). -/
theorem range_request_reaches_backend (X : Op) (hX : X ∈ rangeOps) (ctx : Ctx)
    (marshaler : Marshaler) (client : BTrDBClient) (req : HTTPRequest)
    (hdec : decodeErr X marshaler req = none) :
    calls (requestOf X ctx marshaler client req).events = [(X, ctx, decoded X marshaler req)] ∧
    (X = .Delete →
      (requestOf X ctx marshaler client req).err
        = (client.unary X ctx (decoded X marshaler req)).err) ∧
    (X ≠ .Delete →
      (requestOf X ctx marshaler client req).err
        = match client.stream X ctx (decoded X marshaler req) with
          | .error e => some e
          | .ok s => s.headerErr) := by
  have hd : decodeFailure (marshaler.decode req.Body (ProtoReq.zero X.params)).2 = none := by
    simp only [decodeErr] at hdec
    simp [decodeFailure, hdec]
  rcases mem_streaming_or_unary X with h | h
  · rw [requestOf_streaming h]
    have hnd : X ≠ .Delete := by
      intro hx
      subst hx
      exact absurd h (by decide)
    simp only [streamRequest, StreamResult.toResult, hd, decoded]
    cases hs : client.stream X ctx
        ⟨X.params, (marshaler.decode req.Body (ProtoReq.zero X.params)).1⟩ with
    | error e => simp [calls, hnd]
    | ok s => cases hh : s.headerErr <;> simp [calls, hnd, hh]
  · rw [requestOf_unary h]
    have hdl : X = .Delete := by
      cases X <;> first | rfl | exact absurd hX (by decide) | exact absurd h (by decide)
    subst hdl
    simp [unaryRequest, UnaryResult.toResult, hd, decoded, calls]

/-- Witness of C5, amended: the RawValues request function on a range with
`end <= start`. -/
theorem range_request_reaches_backend_witness :
    badRange (decoded .RawValues sampleMarshaler badRangeRequest) = true ∧
    calls (requestOf .RawValues .background sampleMarshaler sampleClient badRangeRequest).events
      = [(.RawValues, .background, ⟨.RawValuesParams, [("start", 10), ("end", 5)]⟩)] :=
  ⟨by decide,
   (range_request_reaches_backend .RawValues (by decide) .background sampleMarshaler sampleClient badRangeRequest
      (by decide)).1⟩

/-! ## Handlers -/

/-- C6: an operation has the stream forwarder exactly when it is one of the
eight operations listed as server-streaming, and the message forwarder exactly
when it is one of the twelve listed as unary; every operation is in exactly one
of the two lists; the request function of an operation returns a stream exactly
when it is streaming and a message exactly when it is unary; and a handler
forwards at most once, through the forwarder of its operation, the `Recv` of
the stream when it is streaming and the message when it is unary. -/
theorem streaming_unary_classification (X : Op) :
    (forwardOf X = .ForwardResponseStream ↔ X ∈ specStreamingOps) ∧
    (forwardOf X = .ForwardResponseMessage ↔ X ∈ specUnaryOps) ∧
    (X ∈ specStreamingOps ↔ X ∉ specUnaryOps) ∧
    (∀ (ctx : Ctx) (marshaler : Marshaler) (client : BTrDBClient) (req : HTTPRequest),
      ((∃ s, (requestOf X ctx marshaler client req).resp = .recv s) ↔ X ∈ specStreamingOps) ∧
      ((∃ m, (requestOf X ctx marshaler client req).resp = .message m) ↔ X ∈ specUnaryOps)) ∧
    (∀ (mux : ServeMux) (client : BTrDBClient) (w : ResponseWriter) (req : HTTPRequest),
      forwards (handlerOf X mux client w req) = [] ∨
      (X ∈ specStreamingOps ∧ ∃ s, forwards (handlerOf X mux client w req)
          = [(.ForwardResponseStream, .recv s)]) ∨
      (X ∈ specUnaryOps ∧ ∃ m, forwards (handlerOf X mux client w req)
          = [(.ForwardResponseMessage, .message m)])) := by
  have h3 : X ∈ specStreamingOps ↔ X ∉ specUnaryOps := by cases X <;> decide
  refine ⟨by cases X <;> decide, by cases X <;> decide, h3, ?_, ?_⟩
  · intro ctx marshaler client req
    rcases mem_streaming_or_unary X with h | h
    · have hn : X ∉ specUnaryOps := h3.mp h
      rw [requestOf_streaming h]
      simp [StreamResult.toResult, h, hn]
    · have hn : X ∉ specStreamingOps := fun hs => not_streaming_and_unary hs h
      rw [requestOf_unary h]
      simp [UnaryResult.toResult, h, hn]
  · intro mux client w req
    rcases handler_paths X mux client w req with ⟨e, -, h⟩ | ⟨md, e, -, -, h⟩ |
      ⟨md, e, hu, -, -, -, h⟩ | ⟨md, hu, -, -, -, h⟩ | ⟨md, e, hs, -, -, -, h⟩ |
      ⟨md, s, e, hs, -, -, -, -, h⟩ | ⟨md, s, hs, -, -, -, -, h⟩ <;>
    rw [h] <;>
    simp only [forwards_append, forwards_prologue] <;>
    simp [forwards]
    · exact hu
    · exact hs

/-- C8: for every unary operation, when the backend call returns an error the
handler writes exactly that error with the HTTP error writer and calls no
forwarder, whatever message the backend returned alongside the error. -/
theorem unary_backend_error_is_reported_not_forwarded (X : Op) (hX : X ∈ specUnaryOps) (mux : ServeMux) (client : BTrDBClient)
    (w : ResponseWriter) (req : HTTPRequest) (md : MD) (e : GoError)
    (hann : mux.annotate (handlerCtx req) req = .ok md)
    (hdec : decodeFailure (decodeErr X (mux.inbound req) req) = none)
    (hcall : (client.unary X (.annotated (handlerCtx req) md)
      (decoded X (mux.inbound req) req)).err = some e) :
    httpErrors (handlerOf X mux client w req) = [e] ∧
    forwards (handlerOf X mux client w req) = [] := by
  rcases handler_paths X mux client w req with ⟨e1, ha, h⟩ | ⟨md1, e1, ha, hd, h⟩ |
    ⟨md1, e1, hu, ha, hd, hc, h⟩ | ⟨md1, hu, ha, hd, hc, h⟩ | ⟨md1, e1, hs, ha, hd, hc, h⟩ |
    ⟨md1, s, e1, hs, ha, hd, hc, hh, h⟩ | ⟨md1, s, hs, ha, hd, hc, hh, h⟩
  · rw [hann] at ha; cases ha
  · rw [hdec] at hd; cases hd
  · rw [hann] at ha
    cases ha
    rw [hcall] at hc
    cases hc
    rw [h]
    simp only [httpErrors_append, httpErrors_prologue, forwards_append, forwards_prologue]
    simp [httpErrors, forwards]
  · rw [hann] at ha
    cases ha
    rw [hcall] at hc
    cases hc
  · exact (not_streaming_and_unary hs hX).elim
  · exact (not_streaming_and_unary hs hX).elim
  · exact (not_streaming_and_unary hs hX).elim

/-- Witness of C8: StreamInfo against a backend that returns the message
`partial` together with a `NotFound` error. -/
theorem unary_backend_error_is_reported_not_forwarded_witness :
    (failingClient.unary .StreamInfo (.annotated (handlerCtx sampleRequest) [])
      (decoded .StreamInfo (sampleMux.inbound sampleRequest) sampleRequest)).msg
        = some "partial" ∧
    httpErrors (handlerOf .StreamInfo sampleMux failingClient sampleWriter sampleRequest)
      = [.status .NotFound "no such stream"] ∧
    forwards (handlerOf .StreamInfo sampleMux failingClient sampleWriter sampleRequest) = [] :=
  ⟨by decide,
   unary_backend_error_is_reported_not_forwarded .StreamInfo (by decide) sampleMux failingClient sampleWriter sampleRequest []
     (.status .NotFound "no such stream") rfl (by decide) (by decide)⟩

/-- Counterexample to C9: it is not the case that every error raised by the
backend of a streaming operation reaches the client as the terminal status of a
forwarded frame stream and by no other path: when the backend fails to open
the RawValues stream, the handler writes the error with the HTTP error writer
and forwards no stream. -/
theorem stream_open_error_bypasses_frame_stream :
    ¬ ∀ X ∈ specStreamingOps, ∀ (mux : ServeMux) (client : BTrDBClient) (w : ResponseWriter)
        (req : HTTPRequest) (md : MD) (e : GoError),
        mux.annotate (handlerCtx req) req = .ok md →
        decodeFailure (decodeErr X (mux.inbound req) req) = none →
        client.stream X (.annotated (handlerCtx req) md) (decoded X (mux.inbound req) req)
          = .error e →
        httpErrors (handlerOf X mux client w req) = [] ∧
        ∃ s, forwards (handlerOf X mux client w req) = [(.ForwardResponseStream, .recv (some s))] ∧
          s.terminal = e := by
  intro h
  have h1 := (h .RawValues (by decide) sampleMux failingClient sampleWriter sampleRequest []
    (.status .Unavailable "backend down") rfl (by decide) rfl).1
  exact absurd h1 (by decide)

/-- C9, amended: for every streaming operation whose request was annotated and
decoded, an error returned by the backend when opening the stream or when
reading its header is written with the HTTP error writer and no stream is
forwarded; once the stream is open and its header read, the handler writes no
HTTP error and hands the `Recv` of that stream, with every error it will
return, to the stream forwarder alone. -/
theorem stream_errors_by_stage (X : Op) (hX : X ∈ specStreamingOps) (mux : ServeMux) (client : BTrDBClient)
    (w : ResponseWriter) (req : HTTPRequest) (md : MD)
    (hann : mux.annotate (handlerCtx req) req = .ok md)
    (hdec : decodeFailure (decodeErr X (mux.inbound req) req) = none) :
    match client.stream X (.annotated (handlerCtx req) md) (decoded X (mux.inbound req) req) with
    | .error e =>
      httpErrors (handlerOf X mux client w req) = [e] ∧
      forwards (handlerOf X mux client w req) = []
    | .ok s =>
      match s.headerErr with
      | some e =>
        httpErrors (handlerOf X mux client w req) = [e] ∧
        forwards (handlerOf X mux client w req) = []
      | none =>
        httpErrors (handlerOf X mux client w req) = [] ∧
        forwards (handlerOf X mux client w req) = [(.ForwardResponseStream, .recv (some s))] := by
  rcases handler_paths X mux client w req with ⟨e1, ha, h⟩ | ⟨md1, e1, ha, hd, h⟩ |
    ⟨md1, e1, hu, ha, hd, hc, h⟩ | ⟨md1, hu, ha, hd, hc, h⟩ | ⟨md1, e1, hs, ha, hd, hc, h⟩ |
    ⟨md1, s, e1, hs, ha, hd, hc, hh, h⟩ | ⟨md1, s, hs, ha, hd, hc, hh, h⟩
  · rw [hann] at ha; cases ha
  · rw [hdec] at hd; cases hd
  · exact (not_streaming_and_unary hX hu).elim
  · exact (not_streaming_and_unary hX hu).elim
  · rw [hann] at ha
    cases ha
    rw [hc, h]
    simp only [httpErrors_append, httpErrors_prologue, forwards_append, forwards_prologue]
    simp [httpErrors, forwards]
  · rw [hann] at ha
    cases ha
    rw [hc, h]
    simp only [hh, httpErrors_append, httpErrors_prologue, forwards_append, forwards_prologue]
    simp [httpErrors, forwards]
  · rw [hann] at ha
    cases ha
    rw [hc, h]
    simp only [hh, httpErrors_append, httpErrors_prologue, forwards_append, forwards_prologue]
    simp [httpErrors, forwards]

/-- Witness of C9, amended: Changes against a backend whose stream fails in
`Recv` after one frame: the failing stream goes to the forwarder, and nothing
is written with the HTTP error writer. -/
theorem stream_errors_by_stage_witness :
    httpErrors (handlerOf .Changes sampleMux brokenStreamClient sampleWriter sampleRequest)
      = [] ∧
    forwards (handlerOf .Changes sampleMux brokenStreamClient sampleWriter sampleRequest)
      = [(.ForwardResponseStream,
          .recv (some ⟨[], none, ["frame0"], .status .Internal "read failed"⟩))] :=
  stream_errors_by_stage .Changes (by decide) sampleMux brokenStreamClient sampleWriter
    sampleRequest [] rfl (by decide)

/-- C10: every handler first makes a cancellable context from the context of
the request, calls the backend only under a context derived from that
cancellable context, and on every path ends by cancelling it. -/
theorem handler_cancellation_scope (X : Op) (mux : ServeMux) (client : BTrDBClient)
    (w : ResponseWriter) (req : HTTPRequest) :
    Ctx.derivedFrom req.Context (handlerCtx req) = true ∧
    (handlerOf X mux client w req).head? = some (.withCancel req.Context) ∧
    (handlerOf X mux client w req).getLast? = some (.cancel (handlerCtx req)) ∧
    ((calls (handlerOf X mux client w req)).all
      fun c => Ctx.derivedFrom (handlerCtx req) c.2.1) = true := by
  refine ⟨?_, ?_⟩
  · cases hc : req.Context <;> simp [handlerCtx, Ctx.derivedFrom, hc]
  rcases handler_paths X mux client w req with ⟨e, -, h⟩ | ⟨md, e, -, -, h⟩ |
    ⟨md, e, -, -, -, -, h⟩ | ⟨md, -, -, -, -, h⟩ | ⟨md, e, -, -, -, -, h⟩ |
    ⟨md, s, e, -, -, -, -, -, h⟩ | ⟨md, s, -, -, -, -, -, h⟩ <;>
  · rw [h]
    refine ⟨by simp [prologue], by simp [List.getLast?_append], ?_⟩
    simp only [calls_append, calls_prologue]
    simp [calls, Ctx.derivedFrom, handlerCtx]

/-! ## Registration from an endpoint -/

theorem RegisterBTrDBHandlerClient_err (ctx : Ctx) (mux : ServeMux) (client : BTrDBClient) :
    (RegisterBTrDBHandlerClient ctx mux client).2 = none := rfl

theorem RegisterBTrDBHandlerClient_length (ctx : Ctx) (mux : ServeMux) (client : BTrDBClient) :
    (RegisterBTrDBHandlerClient ctx mux client).1.length = 20 := rfl

theorem mem_closeConn (endpoint : String) (conn : ClientConn) :
    ConnEvent.Close conn ∈ closeConn endpoint conn := by
  unfold closeConn
  cases conn.closeErr <;> simp

/-- C12: `RegisterBTrDBHandlerFromEndpoint` returns a non-nil error exactly when
dialling the endpoint fails.  When dialling fails it returns the dial error,
registers no handler and touches no connection; when dialling succeeds it
returns what `RegisterBTrDBHandler` returns on the dialled connection, which is
nil, with the same twenty registrations. -/
theorem register_from_endpoint_fails_iff_dial_fails (g : Grpc) (ctx : Ctx) (mux : ServeMux)
    (endpoint : String) (opts : List DialOption) :
    ((RegisterBTrDBHandlerFromEndpoint g ctx mux endpoint opts).err ≠ none ↔
      ∃ e, g.Dial endpoint opts = .error e) ∧
    match g.Dial endpoint opts with
    | .error e =>
      (RegisterBTrDBHandlerFromEndpoint g ctx mux endpoint opts).err = some e ∧
      (RegisterBTrDBHandlerFromEndpoint g ctx mux endpoint opts).registered = [] ∧
      (RegisterBTrDBHandlerFromEndpoint g ctx mux endpoint opts).deferred = []
    | .ok conn =>
      (RegisterBTrDBHandlerFromEndpoint g ctx mux endpoint opts).err
        = (RegisterBTrDBHandler g ctx mux conn).2 ∧
      (RegisterBTrDBHandlerFromEndpoint g ctx mux endpoint opts).registered
        = (RegisterBTrDBHandler g ctx mux conn).1 ∧
      (RegisterBTrDBHandlerFromEndpoint g ctx mux endpoint opts).err = none ∧
      (RegisterBTrDBHandlerFromEndpoint g ctx mux endpoint opts).registered.length = 20 := by
  cases hd : g.Dial endpoint opts with
  | error e =>
    simp [RegisterBTrDBHandlerFromEndpoint, hd]
  | ok conn =>
    simp [RegisterBTrDBHandlerFromEndpoint, hd, RegisterBTrDBHandler,
      RegisterBTrDBHandlerClient_err, RegisterBTrDBHandlerClient_length]

/-- Counterexample to C13: it is not the case that the goroutine started after
a successful registration closes the connection only once every RPC in flight
has completed or been cancelled: with the registration context cancelled and an
RPC in flight under a context that is not done, the goroutine closes the
connection. -/
theorem connection_closed_with_rpc_in_flight :
    ¬ ∀ (g : Grpc) (ctx : Ctx) (mux : ServeMux) (endpoint : String) (opts : List DialOption)
        (conn : ClientConn), g.Dial endpoint opts = .ok conn →
        (RegisterBTrDBHandlerFromEndpoint g ctx mux endpoint opts).deferred
          = [.goCloseWhenDone ctx conn] ∧
        ∀ s : ConnWorld,
          (s.isDone ctx = true →
            ∃ s', closeWhenDone endpoint ctx conn s = some s' ∧ s'.isClosed conn = true) ∧
          (s.isDone ctx = false → closeWhenDone endpoint ctx conn s = none) ∧
          (∀ s', closeWhenDone endpoint ctx conn s = some s' →
            ∀ c ∈ s.inflight, s.isDone c = true) := by
  intro h
  have h1 := ((h sampleGrpc serverCtx sampleMux "db:4410" [] ⟨"db:4410", none⟩ rfl).2
    shutdownWorld).2.2 ⟨[serverCtx], [rpcCtx], [.Close ⟨"db:4410", none⟩]⟩ (by decide)
    rpcCtx (by decide)
  exact absurd h1 (by decide)

/-- C13, amended: after a successful `RegisterBTrDBHandlerFromEndpoint` the
deferred function closes nothing and starts one goroutine on the dialled
connection; that goroutine is blocked while `ctx` is not done, and once `ctx` is
done it closes the connection, whatever RPCs are in flight: it neither waits
for them nor cancels them. -/
theorem connection_closed_when_ctx_done (g : Grpc) (ctx : Ctx) (mux : ServeMux)
    (endpoint : String) (opts : List DialOption) (conn : ClientConn)
    (hd : g.Dial endpoint opts = .ok conn) :
    (RegisterBTrDBHandlerFromEndpoint g ctx mux endpoint opts).deferred
      = [.goCloseWhenDone ctx conn] ∧
    ∀ s : ConnWorld,
      (s.isDone ctx = false → closeWhenDone endpoint ctx conn s = none) ∧
      (s.isDone ctx = true →
        closeWhenDone endpoint ctx conn s
          = some ⟨s.cancelled, s.inflight, s.actions ++ closeConn endpoint conn⟩ ∧
        (ConnWorld.mk s.cancelled s.inflight
          (s.actions ++ closeConn endpoint conn)).isClosed conn = true) ∧
      (∀ rpcs : List Ctx,
        (closeWhenDone endpoint ctx conn ⟨s.cancelled, rpcs, s.actions⟩).isSome
          = (closeWhenDone endpoint ctx conn s).isSome) := by
  refine ⟨?_, ?_⟩
  · simp [RegisterBTrDBHandlerFromEndpoint, hd, RegisterBTrDBHandler,
      RegisterBTrDBHandlerClient_err]
  · intro s
    refine ⟨?_, ?_, ?_⟩
    · intro h
      simp [closeWhenDone, h]
    · intro h
      refine ⟨by simp [closeWhenDone, h], ?_⟩
      simp [ConnWorld.isClosed, mem_closeConn]
    · intro rpcs
      simp only [closeWhenDone, ConnWorld.isDone]
      split <;> rfl

/-- Witness of C13, amended: registering against a library whose dial
succeeds, then cancelling the registration context while an RPC is in flight. -/
theorem connection_closed_when_ctx_done_witness :
    (RegisterBTrDBHandlerFromEndpoint sampleGrpc serverCtx sampleMux "db:4410" []).deferred
      = [.goCloseWhenDone serverCtx ⟨"db:4410", none⟩] ∧
    closeWhenDone "db:4410" serverCtx ⟨"db:4410", none⟩ shutdownWorld
      = some ⟨[serverCtx], [rpcCtx], [.Close ⟨"db:4410", none⟩]⟩ :=
  ⟨(connection_closed_when_ctx_done sampleGrpc serverCtx sampleMux "db:4410" []
      ⟨"db:4410", none⟩ rfl).1,
   (((connection_closed_when_ctx_done sampleGrpc serverCtx sampleMux "db:4410" []
      ⟨"db:4410", none⟩ rfl).2 shutdownWorld).2.1 (by decide)).1⟩

/-! ## The database service behind the client library -/

namespace Store

theorem find_none_of_not_used {db : DB} {u : UUID} (h : db.used u = false) :
    db.find u = none := by
  simp only [DB.used, Bool.or_eq_false_iff] at h
  simp only [DB.find, List.find?_eq_none]
  intro s hs hp
  have h1 := h.1
  rw [List.any_eq_false] at h1
  exact h1 s hs hp

theorem used_of_find {db : DB} {u : UUID} {s : Stream} (h : db.find u = some s) :
    db.used u = true := by
  simp only [DB.find] at h
  have hm := List.mem_of_find?_eq_some h
  have hp := List.find?_some h
  simp only [DB.used, Bool.or_eq_true, List.any_eq_true]
  exact Or.inl ⟨s, hm, hp⟩

/-- A successful `Create` leaves a fresh stream under the UUID. -/
theorem find_of_create {db db1 : DB} {u : UUID} {c : String} {t a : KV}
    (h : Create db u c t a = .ok db1) : db1.find u = some ⟨u, c, t, a, 0, []⟩ := by
  unfold Create at h
  split at h
  · cases h
  · rename_i hu
    split at h
    · cases h
    · cases h
      have hn : db.find u = none := find_none_of_not_used (by simpa using hu)
      simp only [DB.find] at hn
      simp [DB.find, List.find?_append, hn]

theorem find_update {db : DB} {u : UUID} {s : Stream} (f : Stream → Stream)
    (hf : ∀ x, (f x).uuid = x.uuid) (h : db.find u = some s) :
    (db.update u f).find u = some (f s) := by
  obtain ⟨streams, retired⟩ := db
  simp only [DB.find, DB.update] at h ⊢
  induction streams with
  | nil => simp at h
  | cons x xs ih =>
    by_cases hx : x.uuid = u
    · simp only [List.find?_cons, hx, decide_True] at h
      cases h
      simp [List.find?_cons, hx, hf]
    · simp only [List.find?_cons, hx, decide_False] at h
      simp only [List.map_cons, hx, if_false, List.find?_cons, decide_False]
      exact ih h

/-- What a successful `Insert` of a non-empty batch does to the stream. -/
theorem insert_ok {db db1 : DB} {u : UUID} {values : List RawPoint} {v : Nat}
    (hne : values ≠ []) (h : Insert db u values = .ok (v, db1)) :
    ∃ s, db.find u = some s ∧ v = s.version + 1 ∧
      db1.find u = some { s with commits :=
        ⟨s.version + 1, values.map fun p => p.Time, insertAll values s.points⟩ :: s.commits } := by
  unfold Insert at h
  cases hf : db.find u with
  | none => simp [hf] at h
  | some s =>
    simp only [hf, hne, if_false] at h
    cases h
    exact ⟨s, rfl, rfl, find_update _ (fun _ => rfl) hf⟩

theorem flush_ok {db db1 : DB} {u : UUID} (h : Flush db u = .ok db1) : db1 = db := by
  unfold Flush at h
  cases hf : db.find u with
  | none => simp [hf] at h
  | some s =>
    simp only [hf] at h
    cases h
    rfl

/-- C14: when `Create` with a UUID succeeds, an immediately following `Create`
with the same UUID, whatever collection, tags and annotations it names, fails,
and the code of its error is `SameStream`. -/
theorem create_same_uuid_fails (db db1 : DB) (u : UUID) (c1 c2 : String) (tags a1 t2 a2 : KV)
    (h : Create db u c1 tags a1 = .ok db1) :
    ∃ msg, Create db1 u c2 t2 a2 = .error ⟨.SameStream, msg⟩ := by
  have hu : db1.used u = true := used_of_find (find_of_create h)
  exact ⟨"a stream with that uuid exists or existed", by simp [Create, hu]⟩

/-- Witness of C14: the two calls of the test, on a service with no stream. -/
theorem create_same_uuid_fails_witness :
    Create emptyDB 7 "sn1" [("name", some "foo")] []
      = .ok ⟨[⟨7, "sn1", [("name", some "foo")], [], 0, []⟩], []⟩ ∧
    ∃ msg, Create ⟨[⟨7, "sn1", [("name", some "foo")], [], 0, []⟩], []⟩ 7 "sn2"
      [("name", some "foo")] [] = .error ⟨.SameStream, msg⟩ :=
  ⟨by decide,
   create_same_uuid_fails emptyDB _ 7 "sn1" "sn2" [("name", some "foo")] []
     [("name", some "foo")] [] (by decide)⟩

/-- C15: on a freshly created stream the data version is `10`, and `RawValues`
at the latest version over any range delivers no point, no error, and the
version `10`. -/
theorem fresh_stream_version_is_10 (db db1 : DB) (u : UUID) (c : String) (tags a : KV)
    (start stop : Int) (h : Create db u c tags a = .ok db1) :
    Version db1 u = .ok 10 ∧
    RawValues db1 u start stop LatestVersion = ⟨[], 10, none⟩ := by
  have hf := find_of_create h
  constructor
  · simp [Version, hf, Stream.version]
  · simp [RawValues, hf, Stream.resolve, Stream.version, Stream.pointsAt, LatestVersion]

/-- Witness of C15: the query of the test, over `[0, 100)`. -/
theorem fresh_stream_version_is_10_witness :
    RawValues ⟨[⟨7, "test/7", [("name", some "0")], [], 0, []⟩], []⟩ 7 0 100 LatestVersion
      = ⟨[], 10, none⟩ :=
  (fresh_stream_version_is_10 emptyDB _ 7 "test/7" [("name", some "0")] [] 0 100
    (by decide)).2

set_option maxRecDepth 100000

/-- The stream of the scenario after the two inserts: two mutations, with the
versions `11` and `12`. -/
theorem find_scenarioSecond :
    scenarioSecond.find 7 = some
      ⟨7, "test/7", [("name", some "n")], [], 0,
        [⟨12, (ramp 300 100).map fun p => p.Time, insertAll (ramp 300 100) (ramp 0 100)⟩,
         ⟨11, (ramp 0 100).map fun p => p.Time, ramp 0 100⟩]⟩ := by
  decide

/-- C17: for a live stream, any version and any resolution, `Changes` between
the version and itself delivers no changed range and no error. -/
theorem changes_same_version_empty (db : DB) (u : UUID) (s : Stream) (v : Nat)
    (resolution : Fin 65) (h : db.find u = some s) :
    (Changes db u v v resolution).items = [] ∧ (Changes db u v v resolution).err = none := by
  simp [Changes, h]

/-- Witness of C17: the scenario of the test, `Changes` between version `12` and
itself after two inserts. -/
theorem changes_same_version_empty_witness :
    (Changes scenarioSecond 7 12 12 0).items = [] ∧
    (Changes scenarioSecond 7 12 12 0).err = none :=
  changes_same_version_empty scenarioSecond 7 _ 12 0 find_scenarioSecond


theorem pointsAt_latest (s : Stream) : s.pointsAt (s.resolve LatestVersion) = s.points := by
  obtain ⟨uuid, collection, tags, annotations, annVersion, commits⟩ := s
  cases commits with
  | nil => rfl
  | cons c cs => simp [Stream.pointsAt, Stream.resolve, Stream.version, Stream.points, LatestVersion]

theorem resolve_latest (s : Stream) : s.resolve LatestVersion = s.version := by
  simp [Stream.resolve]

/-- What a successful `Insert` does to the stream, for any batch. -/
theorem insert_points {db db1 : DB} {u : UUID} {values : List RawPoint} {v : Nat}
    (h : Insert db u values = .ok (v, db1)) :
    ∃ s s1, db.find u = some s ∧ db1.find u = some s1 ∧
      s1.points = insertAll values s.points ∧
      s1.version = (if values = [] then s.version else s.version + 1) := by
  by_cases hne : values = []
  · subst hne
    unfold Insert at h
    cases hf : db.find u with
    | none => simp [hf] at h
    | some s =>
      simp only [hf, if_true] at h
      cases h
      exact ⟨s, s, rfl, hf, rfl, rfl⟩
  · obtain ⟨s, hf, -, h1⟩ := insert_ok hne h
    exact ⟨s, _, hf, h1, rfl, by simp [hne, Stream.version]⟩

/-- C16: an `Insert` of a non-empty batch followed by `Flush` leaves the data
version strictly greater than before; and on a fresh stream two successive
pairs of `Insert` of a non-empty batch and `Flush` leave the version `12`. -/
theorem version_advances_per_insert_flush :
    (∀ (db db1 db2 : DB) (u : UUID) (batch : List RawPoint) (v v0 : Nat),
      batch ≠ [] → Version db u = .ok v0 → Insert db u batch = .ok (v, db1) →
      Flush db1 u = .ok db2 → ∃ v2, Version db2 u = .ok v2 ∧ v0 < v2) ∧
    (∀ (db db0 db1 db2 db3 db4 : DB) (u : UUID) (c : String) (tags a : KV)
      (batch1 batch2 : List RawPoint) (v1 v2 : Nat),
      batch1 ≠ [] → batch2 ≠ [] → Create db u c tags a = .ok db0 →
      Insert db0 u batch1 = .ok (v1, db1) → Flush db1 u = .ok db2 →
      Insert db2 u batch2 = .ok (v2, db3) → Flush db3 u = .ok db4 →
      Version db4 u = .ok 12) := by
  constructor
  · intro db db1 db2 u batch v v0 hne hv hi hfl
    obtain ⟨s, s1, hf, hf1, -, hver⟩ := insert_points hi
    have := flush_ok hfl
    subst this
    simp only [Version, hf] at hv
    cases hv
    refine ⟨s1.version, by simp [Version, hf1], ?_⟩
    simp [hver, hne]
  · intro db db0 db1 db2 db3 db4 u c tags a batch1 batch2 v1 v2 hne1 hne2 hc hi1 hf1 hi2 hf2
    have h0 := find_of_create hc
    obtain ⟨s, s1, hs, hs1, -, hver1⟩ := insert_points hi1
    rw [h0] at hs
    cases hs
    have := flush_ok hf1
    subst this
    obtain ⟨s', s2, hs', hs2, -, hver2⟩ := insert_points hi2
    rw [hs1] at hs'
    cases hs'
    have := flush_ok hf2
    subst this
    simp only [hne1, hne2, if_false] at hver1 hver2
    simp only [Version, hs2, hver2, hver1]
    rfl

/-- Witness of C16: the scenario of the test, `100` points at the times
`0..99`, a flush, `100` points at `300..399`, a flush. -/
theorem version_advances_per_insert_flush_witness :
    Version scenarioSecond 7 = .ok 12 :=
  version_advances_per_insert_flush.2 emptyDB scenarioCreated scenarioFirst scenarioFirst
    scenarioSecond scenarioSecond 7 "test/7" [("name", some "n")] [] (ramp 0 100) (ramp 300 100)
    11 12 (by decide) (by decide) (by decide) (by decide) (by decide) (by decide) (by decide)


theorem mem_insertRange (r x : ChangedRange) (l : List ChangedRange) :
    x ∈ insertRange r l ↔ x = r ∨ x ∈ l := by
  induction l with
  | nil => simp [insertRange]
  | cons q qs ih =>
    unfold insertRange
    split
    · rename_i h
      subst h
      simp
    · split
      · simp
      · simp only [List.mem_cons, ih]
        tauto

theorem mem_foldr_insertRange (x : ChangedRange) (l : List ChangedRange) :
    x ∈ l.foldr insertRange [] ↔ x ∈ l := by
  induction l with
  | nil => simp
  | cons r rs ih => simp [List.foldr_cons, mem_insertRange, ih]

theorem mergeRanges_eq_nil (l : List ChangedRange) : mergeRanges l = [] → l = [] := by
  cases l with
  | nil => intro _; rfl
  | cons r rs =>
    intro h
    unfold mergeRanges at h
    split at h
    · cases h
    · split at h <;> cases h

/-- Joining intervals loses no covered time. -/
theorem mergeRanges_covers (t : Int) (l : List ChangedRange)
    (h : ∃ r ∈ l, r.covers t) : ∃ r ∈ mergeRanges l, r.covers t := by
  induction l with
  | nil => simp at h
  | cons r rs ih =>
    obtain ⟨x, hx, hcx⟩ := h
    unfold mergeRanges
    split
    · rename_i hnil
      have hrs := mergeRanges_eq_nil rs hnil
      subst hrs
      exact ⟨x, by simpa using hx, hcx⟩
    · rename_i s ss hm
      rcases List.mem_cons.mp hx with rfl | hxr
      · split
        · refine ⟨_, List.mem_cons_self _ _, ?_⟩
          exact ⟨le_trans (min_le_left _ _) hcx.1, lt_of_lt_of_le hcx.2 (le_max_left _ _)⟩
        · exact ⟨x, List.mem_cons_self _ _, hcx⟩
      · obtain ⟨y, hy, hcy⟩ := ih ⟨x, hxr, hcx⟩
        rw [hm] at hy
        rcases List.mem_cons.mp hy with rfl | hys
        · split
          · refine ⟨_, List.mem_cons_self _ _, ?_⟩
            exact ⟨le_trans (min_le_right _ _) hcy.1, lt_of_lt_of_le hcy.2 (le_max_right _ _)⟩
          · exact ⟨y, by simp, hcy⟩
        · split
          · exact ⟨y, List.mem_cons_of_mem _ hys, hcy⟩
          · exact ⟨y, by simp [hys], hcy⟩

/-- A time lies in its own block. -/
theorem blockOf_covers (resolution : Fin 65) (t : Int) : (blockOf resolution t).covers t := by
  have hw : (0 : Int) < 2 ^ resolution.val := by positivity
  constructor
  · exact Int.ediv_mul_le t (ne_of_gt hw)
  · have := Int.lt_ediv_add_one_mul_self t hw
    simp only [blockOf]
    linarith

/-- A block is `2^resolution` wide and starts at a multiple of its width. -/
theorem blockOf_width (resolution : Fin 65) (t : Int) :
    (blockOf resolution t).End - (blockOf resolution t).Start = 2 ^ resolution.val := by
  simp [blockOf]

theorem mem_changedBetween (s : Stream) (lo hi : Nat) (c : Commit) (x : Int)
    (hc : c ∈ s.commits) (hlo : lo < c.version) (hhi : c.version ≤ hi) (hx : x ∈ c.changed) :
    x ∈ s.changedBetween lo hi := by
  obtain ⟨uuid, collection, tags, annotations, annVersion, commits⟩ := s
  simp only [Stream.changedBetween] at hc ⊢
  induction commits with
  | nil => simp at hc
  | cons d ds ih =>
    simp only [List.foldr_cons]
    rcases List.mem_cons.mp hc with rfl | hcd
    · simp [hlo, hhi, hx]
    · split
      · exact List.mem_append_right _ (ih hcd)
      · exact ih hcd

/-- C18: for a live stream and two versions that resolve to `lo < hi`, when a
mutation with a version in `(lo, hi]` changed at least one point, `Changes`
delivers at least one changed range and no error, and every point changed by
that mutation lies in one of the delivered ranges. -/
theorem changes_cover_mutations (db : DB) (u : UUID) (s : Stream) (v1 v2 : Nat)
    (resolution : Fin 65) (c : Commit)
    (h : db.find u = some s) (hc : c ∈ s.commits)
    (hlo : s.resolve v1 < c.version) (hhi : c.version ≤ s.resolve v2)
    (hmut : c.changed ≠ []) :
    (Changes db u v1 v2 resolution).items ≠ [] ∧
    (Changes db u v1 v2 resolution).err = none ∧
    ∀ x ∈ c.changed, ∃ r ∈ (Changes db u v1 v2 resolution).items, r.covers x := by
  have hlt : ¬ s.resolve v2 ≤ s.resolve v1 := by omega
  have hcov : ∀ x ∈ c.changed, ∃ r ∈ (Changes db u v1 v2 resolution).items, r.covers x := by
    intro x hx
    simp only [Changes, h, hlt, if_false]
    apply mergeRanges_covers
    refine ⟨blockOf resolution x, ?_, blockOf_covers resolution x⟩
    rw [mem_foldr_insertRange]
    exact List.mem_map_of_mem _ (mem_changedBetween s _ _ c x hc hlo hhi hx)
  refine ⟨?_, by simp [Changes, h, hlt], hcov⟩
  obtain ⟨x, hx⟩ := List.exists_mem_of_ne_nil _ hmut
  obtain ⟨r, hr, -⟩ := hcov x hx
  exact List.ne_nil_of_mem hr

/-- Witness of C18: the scenarios of the tests: after two inserts the versions
`11` and `12` differ by the points at `300..399`, which `Changes` covers with
one range, also when the second version is given as the latest. -/
theorem changes_cover_mutations_witness :
    (Changes scenarioSecond 7 11 12 0).items = [⟨300, 400⟩] ∧
    (Changes scenarioSecond 7 11 LatestVersion 0).items = [⟨300, 400⟩] ∧
    ∃ r ∈ (Changes scenarioSecond 7 11 12 0).items, r.covers 345 :=
  ⟨by decide, by decide,
   (changes_cover_mutations scenarioSecond 7 _ 11 12 0
      ⟨12, (ramp 300 100).map fun p => p.Time, insertAll (ramp 300 100) (ramp 0 100)⟩
      find_scenarioSecond (by decide) (by decide) (by decide) (by decide)).2.2 345 (by decide)⟩

/-- C19: for a live stream `RawValues` delivers, without error, exactly the
points of the stream (as of the resolved version) whose time `t` satisfies
`start <= t < stop`, in their stored order; and on a fresh stream, after the
insert of points at the times `0..99` and a flush, `RawValues(0, 98, latest)`
delivers the `98` points at the times `0..97`. -/
theorem rawvalues_is_half_open :
    (∀ (db : DB) (u : UUID) (s : Stream) (start stop : Int) (v : Nat),
      db.find u = some s →
      (RawValues db u start stop v).err = none ∧
      (RawValues db u start stop v).items.Sublist (s.pointsAt (s.resolve v)) ∧
      ∀ p, p ∈ (RawValues db u start stop v).items ↔
        p ∈ s.pointsAt (s.resolve v) ∧ start ≤ p.Time ∧ p.Time < stop) ∧
    (∀ (db db0 db1 db2 : DB) (u : UUID) (c : String) (tags a : KV) (v : Nat),
      Create db u c tags a = .ok db0 → Insert db0 u (ramp 0 100) = .ok (v, db1) →
      Flush db1 u = .ok db2 →
      RawValues db2 u 0 98 LatestVersion = ⟨ramp 0 98, 11, none⟩ ∧
      (RawValues db2 u 0 98 LatestVersion).items.length = 98) := by
  constructor
  · intro db u s start stop v h
    refine ⟨by simp [RawValues, h], ?_, ?_⟩
    · simp only [RawValues, h]
      exact List.filter_sublist _
    · intro p
      simp [RawValues, h, List.mem_filter]
  · intro db db0 db1 db2 u c tags a v hc hi hfl
    have h0 := find_of_create hc
    obtain ⟨s, s1, hs, hs1, hpts, hver⟩ := insert_points hi
    rw [h0] at hs
    cases hs
    have := flush_ok hfl
    subst this
    have hv : s1.version = 11 := by
      rw [hver, if_neg (by decide)]
      rfl
    have hp : s1.points = ramp 0 100 := by
      rw [hpts]
      show insertAll (ramp 0 100) [] = ramp 0 100
      decide
    have hr : RawValues db2 u 0 98 LatestVersion = ⟨ramp 0 98, 11, none⟩ := by
      simp only [RawValues, hs1]
      rw [pointsAt_latest, resolve_latest, hv, hp]
      decide
    refine ⟨hr, ?_⟩
    rw [hr]
    decide

/-- Witness of C19: the scenario of the test. -/
theorem rawvalues_is_half_open_witness :
    (RawValues scenarioFirst 7 0 98 LatestVersion).items.length = 98 :=
  (rawvalues_is_half_open.2 emptyDB scenarioCreated scenarioFirst scenarioFirst 7 "test/7"
    [("name", some "n")] [] 11 (by decide) (by decide) (by decide)).2


theorem mem_insertPoint {p x : RawPoint} {l : List RawPoint} (h : x ∈ insertPoint p l) :
    x = p ∨ x ∈ l := by
  induction l with
  | nil => simpa [insertPoint] using h
  | cons q qs ih =>
    unfold insertPoint at h
    split at h
    · simpa using h
    · split at h
      · rcases List.mem_cons.mp h with h1 | h1
        · exact Or.inl h1
        · exact Or.inr (List.mem_cons_of_mem _ h1)
      · rcases List.mem_cons.mp h with h1 | h1
        · exact Or.inr (by simp [h1])
        · rcases ih h1 with h2 | h2
          · exact Or.inl h2
          · exact Or.inr (List.mem_cons_of_mem _ h2)

/-- Putting a point keeps the list in strictly increasing time order. -/
theorem insertPoint_sorted (p : RawPoint) (l : List RawPoint)
    (h : l.Pairwise fun a b => a.Time < b.Time) :
    (insertPoint p l).Pairwise fun a b => a.Time < b.Time := by
  induction l with
  | nil => simp [insertPoint]
  | cons q qs ih =>
    rw [List.pairwise_cons] at h
    unfold insertPoint
    split
    · rename_i hlt
      refine List.pairwise_cons.mpr ⟨?_, List.pairwise_cons.mpr h⟩
      intro x hx
      rcases List.mem_cons.mp hx with rfl | hx
      · exact hlt
      · exact lt_trans hlt (h.1 x hx)
    · split
      · rename_i heq
        refine List.pairwise_cons.mpr ⟨?_, h.2⟩
        intro x hx
        rw [heq]
        exact h.1 x hx
      · rename_i hnlt hne
        refine List.pairwise_cons.mpr ⟨?_, ih h.2⟩
        intro x hx
        rcases mem_insertPoint hx with rfl | hx
        · omega
        · exact h.1 x hx

/-- Putting a point at a new timestamp adds it and loses nothing. -/
theorem insertPoint_perm (p : RawPoint) (l : List RawPoint)
    (h : ∀ q ∈ l, q.Time ≠ p.Time) : (insertPoint p l).Perm (p :: l) := by
  induction l with
  | nil => simp [insertPoint]
  | cons q qs ih =>
    unfold insertPoint
    split
    · exact List.Perm.refl _
    · split
      · rename_i heq
        exact absurd heq.symm (h q (List.mem_cons_self _ _))
      · exact ((ih fun x hx => h x (List.mem_cons_of_mem _ hx)).cons q).trans
          (List.Perm.swap p q qs)

theorem insertAll_sorted (batch l : List RawPoint)
    (h : l.Pairwise fun a b => a.Time < b.Time) :
    (insertAll batch l).Pairwise fun a b => a.Time < b.Time := by
  induction batch generalizing l with
  | nil => exact h
  | cons p ps ih => exact ih _ (insertPoint_sorted p l h)

theorem insertAll_perm (batch l : List RawPoint)
    (hnd : (batch.map fun p => p.Time).Nodup)
    (hdis : ∀ p ∈ batch, ∀ q ∈ l, q.Time ≠ p.Time) :
    (insertAll batch l).Perm (batch ++ l) := by
  induction batch generalizing l with
  | nil => exact List.Perm.refl _
  | cons p ps ih =>
    rw [List.map_cons, List.nodup_cons] at hnd
    have hp : (insertPoint p l).Perm (p :: l) :=
      insertPoint_perm p l (hdis p (List.mem_cons_self _ _))
    have h1 : (insertAll ps (insertPoint p l)).Perm (ps ++ insertPoint p l) := by
      apply ih _ hnd.2
      intro x hx q hq
      rcases mem_insertPoint hq with rfl | hq
      · intro heq
        exact hnd.1 (List.mem_map.mpr ⟨x, hx, heq.symm⟩)
      · exact hdis x (List.mem_cons_of_mem _ hx) q hq
    show (insertAll ps (insertPoint p l)).Perm (p :: ps ++ l)
    refine h1.trans ?_
    refine (List.Perm.append_left ps hp).trans ?_
    exact List.perm_middle

theorem minTime_le (batch : List RawPoint) : ∀ p ∈ batch, minTime batch ≤ p.Time := by
  induction batch with
  | nil => simp
  | cons a as ih =>
    cases as with
    | nil => simp [minTime]
    | cons b bs =>
      intro p hp
      simp only [minTime]
      rcases List.mem_cons.mp hp with rfl | hp
      · exact min_le_left _ _
      · exact le_trans (min_le_right _ _) (ih p hp)

theorem le_maxTime (batch : List RawPoint) : ∀ p ∈ batch, p.Time ≤ maxTime batch := by
  induction batch with
  | nil => simp
  | cons a as ih =>
    cases as with
    | nil => simp [maxTime]
    | cons b bs =>
      intro p hp
      simp only [maxTime]
      rcases List.mem_cons.mp hp with rfl | hp
      · exact le_max_left _ _
      · exact le_trans (ih p hp) (le_max_right _ _)

end Store

/-! ## Request functions and handlers, path by path -/

/-- C25: for each of the twenty request functions, a body whose decoding
returns `io.EOF` is not rejected: the backend method of the operation is called
once with the request value as the decoder left it, which is the zero value
when the decoder wrote nothing, and the error returned is the one the backend
gave, if any, not one made by the request function. -/
theorem eof_body_reaches_backend (X : Op) (ctx : Ctx) (marshaler : Marshaler)
    (client : BTrDBClient) (req : HTTPRequest)
    (hdec : decodeErr X marshaler req = some .EOF) :
    calls (requestOf X ctx marshaler client req).events = [(X, ctx, decoded X marshaler req)] ∧
    ((marshaler.decode req.Body (ProtoReq.zero X.params)).1 = (ProtoReq.zero X.params).fields →
      decoded X marshaler req = ProtoReq.zero X.params) ∧
    (X ∈ specUnaryOps →
      (requestOf X ctx marshaler client req).err
        = (client.unary X ctx (decoded X marshaler req)).err ∧
      (requestOf X ctx marshaler client req).resp
        = .message (client.unary X ctx (decoded X marshaler req)).msg) ∧
    (X ∈ specStreamingOps →
      (requestOf X ctx marshaler client req).err
        = match client.stream X ctx (decoded X marshaler req) with
          | .error e => some e
          | .ok s => s.headerErr) := by
  have hd : decodeFailure (marshaler.decode req.Body (ProtoReq.zero X.params)).2 = none := by
    simp only [decodeErr] at hdec
    simp [decodeFailure, hdec]
  refine ⟨?_, ?_, ?_, ?_⟩
  · rcases mem_streaming_or_unary X with h | h
    · rw [requestOf_streaming h]
      simp only [streamRequest, StreamResult.toResult, hd, decoded]
      cases hs : client.stream X ctx
          ⟨X.params, (marshaler.decode req.Body (ProtoReq.zero X.params)).1⟩ with
      | error e => simp [calls]
      | ok s => cases hh : s.headerErr <;> simp [calls, hh]
    · rw [requestOf_unary h]
      simp [unaryRequest, UnaryResult.toResult, hd, decoded, calls]
  · intro h
    simp only [decoded]
    rw [h]
    rfl
  · intro h
    rw [requestOf_unary h]
    simp [unaryRequest, UnaryResult.toResult, hd, decoded]
  · intro h
    rw [requestOf_streaming h]
    simp only [streamRequest, StreamResult.toResult, hd, decoded]
    cases hs : client.stream X ctx
        ⟨X.params, (marshaler.decode req.Body (ProtoReq.zero X.params)).1⟩ with
    | error e => simp
    | ok s => cases hh : s.headerErr <;> simp [hh]

/-- Witness of C25: the Info request function on an empty body. -/
theorem eof_body_reaches_backend_witness :
    decodeErr .Info sampleMarshaler emptyRequest = some .EOF ∧
    calls (requestOf .Info .background sampleMarshaler sampleClient emptyRequest).events
      = [(.Info, .background, ProtoReq.zero .InfoParams)] ∧
    (requestOf .Info .background sampleMarshaler sampleClient emptyRequest).err = none :=
  ⟨by decide,
   (eof_body_reaches_backend .Info .background sampleMarshaler sampleClient emptyRequest
      (by decide)).1,
   ((eof_body_reaches_backend .Info .background sampleMarshaler sampleClient emptyRequest
      (by decide)).2.2.1 (by decide)).1⟩

/-- C26: every handler, on every outcome of the context annotation, of the
decoding and of the backend call, takes exactly one response-producing action:
either it calls the HTTP error writer once and no forwarder, or it calls the
forwarder of its operation once and never the HTTP error writer. -/
theorem handler_responds_exactly_once (X : Op) (mux : ServeMux) (client : BTrDBClient)
    (w : ResponseWriter) (req : HTTPRequest) :
    ((httpErrors (handlerOf X mux client w req)).length = 1 ∧
      forwards (handlerOf X mux client w req) = []) ∨
    (httpErrors (handlerOf X mux client w req) = [] ∧
      ∃ p, forwards (handlerOf X mux client w req) = [(forwardOf X, p)]) := by
  rcases handler_paths X mux client w req with ⟨e, -, h⟩ | ⟨md, e, -, -, h⟩ |
    ⟨md, e, hu, -, -, -, h⟩ | ⟨md, hu, -, -, -, h⟩ | ⟨md, e, hs, -, -, -, h⟩ |
    ⟨md, s, e, hs, -, -, -, -, h⟩ | ⟨md, s, hs, -, -, -, -, h⟩
  · rw [h]
    simp only [httpErrors_append, httpErrors_prologue, forwards_append, forwards_prologue]
    simp [httpErrors, forwards]
  · rw [h]
    simp only [httpErrors_append, httpErrors_prologue, forwards_append, forwards_prologue]
    simp [httpErrors, forwards]
  · rw [h]
    simp only [httpErrors_append, httpErrors_prologue, forwards_append, forwards_prologue]
    simp [httpErrors, forwards]
  · rw [h]
    simp only [httpErrors_append, httpErrors_prologue, forwards_append, forwards_prologue]
    simp [httpErrors, forwards, forwardOf_unary hu]
  · rw [h]
    simp only [httpErrors_append, httpErrors_prologue, forwards_append, forwards_prologue]
    simp [httpErrors, forwards]
  · rw [h]
    simp only [httpErrors_append, httpErrors_prologue, forwards_append, forwards_prologue]
    simp [httpErrors, forwards]
  · rw [h]
    simp only [httpErrors_append, httpErrors_prologue, forwards_append, forwards_prologue]
    simp [httpErrors, forwards, forwardOf_streaming hs]

/-- C27: when annotating the request context fails, the handler writes that
error with the HTTP error writer and returns: it decodes no body, calls no
backend method and no forwarder, and the deferred cancel is all that follows. -/
theorem annotate_failure_stops_handler (X : Op) (mux : ServeMux) (client : BTrDBClient)
    (w : ResponseWriter) (req : HTTPRequest) (e : GoError)
    (hann : mux.annotate (handlerCtx req) req = .error e) :
    handlerOf X mux client w req
      = prologue w req ++ [.HTTPError (handlerCtx req) e, .cancel (handlerCtx req)] ∧
    httpErrors (handlerOf X mux client w req) = [e] ∧
    decodes (handlerOf X mux client w req) = [] ∧
    calls (handlerOf X mux client w req) = [] ∧
    forwards (handlerOf X mux client w req) = [] := by
  have ht : handlerOf X mux client w req
      = prologue w req ++ [.HTTPError (handlerCtx req) e, .cancel (handlerCtx req)] := by
    rcases handler_paths X mux client w req with ⟨e1, ha, h⟩ | ⟨md, e1, ha, -, h⟩ |
      ⟨md, e1, -, ha, -, -, h⟩ | ⟨md, -, ha, -, -, h⟩ | ⟨md, e1, -, ha, -, -, h⟩ |
      ⟨md, s, e1, -, ha, -, -, -, h⟩ | ⟨md, s, -, ha, -, -, -, h⟩
    · rw [hann] at ha
      cases ha
      exact h
    all_goals (rw [hann] at ha; cases ha)
  refine ⟨ht, ?_, ?_, ?_, ?_⟩
  · rw [ht]
    simp only [httpErrors_append, httpErrors_prologue]
    simp [httpErrors]
  · rw [ht]
    simp only [decodes_append, decodes_prologue]
    simp [decodes]
  · rw [ht]
    simp only [calls_append, calls_prologue]
    simp [calls]
  · rw [ht]
    simp only [forwards_append, forwards_prologue]
    simp [forwards]

/-- Witness of C27: the Insert handler under a mux whose annotation fails. -/
theorem annotate_failure_stops_handler_witness :
    handlerOf .Insert failingMux sampleClient sampleWriter sampleRequest
      = [.withCancel (.request 0), .watchClose (.withCancel (.request 0)),
         .HTTPError (.withCancel (.request 0)) (.status .InvalidArgument "invalid grpc-timeout"),
         .cancel (.withCancel (.request 0))] :=
  (annotate_failure_stops_handler .Insert failingMux sampleClient sampleWriter sampleRequest
    (.status .InvalidArgument "invalid grpc-timeout") rfl).1

/-- C28: a streaming request function returns a stream exactly when decoding
did not fail (it succeeded or gave `io.EOF`), the backend opened the stream and
`Header()` succeeded; then the stream is the one the backend opened, the
`HeaderMD` of the returned metadata is its header and the error is nil.
Otherwise the stream is nil, the metadata is empty, and the error is the first
one met: the decode error as `InvalidArgument`, or the open or header error
unchanged. -/
theorem stream_request_outcomes (X : Op) (hX : X ∈ specStreamingOps) (ctx : Ctx)
    (marshaler : Marshaler) (client : BTrDBClient) (req : HTTPRequest) :
    ((∃ s, (requestOf X ctx marshaler client req).resp = .recv (some s)) ↔
      decodeFailure (decodeErr X marshaler req) = none ∧
      ∃ s, client.stream X ctx (decoded X marshaler req) = .ok s ∧ s.headerErr = none) ∧
    match decodeFailure (decodeErr X marshaler req) with
    | some e =>
      (requestOf X ctx marshaler client req).resp = .recv none ∧
      (requestOf X ctx marshaler client req).md = ⟨[], []⟩ ∧
      (requestOf X ctx marshaler client req).err = some (status.Errorf .InvalidArgument e)
    | none =>
      match client.stream X ctx (decoded X marshaler req) with
      | .error e =>
        (requestOf X ctx marshaler client req).resp = .recv none ∧
        (requestOf X ctx marshaler client req).md = ⟨[], []⟩ ∧
        (requestOf X ctx marshaler client req).err = some e
      | .ok s =>
        match s.headerErr with
        | some e =>
          (requestOf X ctx marshaler client req).resp = .recv none ∧
          (requestOf X ctx marshaler client req).md = ⟨[], []⟩ ∧
          (requestOf X ctx marshaler client req).err = some e
        | none =>
          (requestOf X ctx marshaler client req).resp = .recv (some s) ∧
          (requestOf X ctx marshaler client req).md = ⟨s.header, []⟩ ∧
          (requestOf X ctx marshaler client req).err = none := by
  rw [requestOf_streaming hX]
  simp only [streamRequest, StreamResult.toResult, decodeErr, decoded]
  cases hd : decodeFailure (marshaler.decode req.Body (ProtoReq.zero X.params)).2 with
  | some e => simp
  | none =>
    cases hs : client.stream X ctx
        ⟨X.params, (marshaler.decode req.Body (ProtoReq.zero X.params)).1⟩ with
    | error e => simp
    | ok s => cases hh : s.headerErr <;> simp [hh]

/-- Witness of C28: the Windows request function against a backend whose
stream carries a header, and against one whose `Header()` fails. -/
theorem stream_request_outcomes_witness :
    (requestOf .Windows .background sampleMarshaler headerClient sampleRequest).md
      = ⟨[("content-type", "application/grpc")], []⟩ ∧
    ((∃ s, (requestOf .Windows .background sampleMarshaler headerFailingClient
        sampleRequest).resp = .recv (some s)) ↔
      decodeFailure (decodeErr .Windows sampleMarshaler sampleRequest) = none ∧
      ∃ s, headerFailingClient.stream .Windows .background
          (decoded .Windows sampleMarshaler sampleRequest) = .ok s ∧ s.headerErr = none) :=
  ⟨(stream_request_outcomes .Windows (by decide) .background sampleMarshaler headerClient
      sampleRequest).2.2.1,
   (stream_request_outcomes .Windows (by decide) .background sampleMarshaler
      headerFailingClient sampleRequest).1⟩

/-- C29: `RegisterBTrDBHandlerClient` returns nil and makes exactly twenty
calls of `mux.Handle`, one for each operation in the stated order; each
registers, under the pattern variable of the operation, the handler of that
operation closed over the one mux and the one client given, and that handler
calls no backend method but the one of its operation, on that client. -/
theorem registration_order (ctx : Ctx) (mux : ServeMux) (client : BTrDBClient) :
    (RegisterBTrDBHandlerClient ctx mux client).2 = none ∧
    (RegisterBTrDBHandlerClient ctx mux client).1.length = 20 ∧
    specRegistrationOrder.Nodup ∧
    (∀ X : Op, X ∈ specRegistrationOrder) ∧
    ((RegisterBTrDBHandlerClient ctx mux client).1.map fun r => (r.meth, r.pat))
      = specRegistrationOrder.map (fun X => ("POST", patternOf X)) ∧
    ((RegisterBTrDBHandlerClient ctx mux client).1.map fun r => r.h)
      = specRegistrationOrder.map (fun X => handlerOf X mux client) ∧
    (∀ (X : Op) (w : ResponseWriter) (req : HTTPRequest),
      calls (handlerOf X mux client w req) = [] ∨
      ∃ md, calls (handlerOf X mux client w req)
        = [(X, .annotated (handlerCtx req) md, decoded X (mux.inbound req) req)]) := by
  refine ⟨rfl, rfl, by decide, fun X => by cases X <;> decide, rfl, rfl, ?_⟩
  intro X w req
  exact (handler_wiring X mux client w req).2.1

/-! ## The database service: deletion, obliteration and lookup -/

namespace Store

set_option maxRecDepth 100000

/-- What a successful `Create` does to the state. -/
theorem create_ok {db db1 : DB} {u : UUID} {c : String} {t a : KV}
    (h : Create db u c t a = .ok db1) :
    db.used u = false ∧ db1 = ⟨db.streams ++ [⟨u, c, t, a, 0, []⟩], db.retired⟩ := by
  unfold Create at h
  split at h
  · cases h
  · rename_i hu
    split at h
    · cases h
    · cases h
      exact ⟨by simpa using hu, rfl⟩

/-- What a successful `Delete` does to the stream. -/
theorem delete_ok {db db1 : DB} {u : UUID} {start stop : Int} {v : Nat}
    (h : Delete db u start stop = .ok (v, db1)) :
    ∃ s s1, db.find u = some s ∧ db1.find u = some s1 ∧ s1.version = v ∧
      s1.points = s.points.filter fun p =>
        !(decide (start ≤ p.Time) && decide (p.Time < stop)) := by
  unfold Delete at h
  cases hf : db.find u with
  | none => simp [hf] at h
  | some s =>
    simp only [hf] at h
    split at h
    · rename_i hnone
      cases h
      refine ⟨s, s, rfl, hf, rfl, ?_⟩
      symm
      rw [List.filter_eq_self]
      intro p hp
      rw [List.filter_eq_nil_iff] at hnone
      have hq := hnone p hp
      simp only [Bool.and_eq_true, decide_eq_true_eq] at hq
      simp only [Bool.not_eq_true', Bool.and_eq_false_iff, decide_eq_false_iff_not]
      omega
    · cases h
      exact ⟨s, _, rfl, find_update _ (fun _ => rfl) hf, rfl, rfl⟩

/-- C21: after `Delete` over `[a, b)` returns successfully, and without any
`Flush`, `RawValues` at the latest version over any range inside `[a, b)`
delivers no point and no error; a second `Delete` over the same range
succeeds, and so do an `Insert` of any batch and the `Flush` after it. -/
theorem delete_is_synchronous (db db1 : DB) (u : UUID) (a b : Int) (v : Nat)
    (h : Delete db u a b = .ok (v, db1)) :
    (∀ start stop : Int, a ≤ start → stop ≤ b →
      (RawValues db1 u start stop LatestVersion).items = [] ∧
      (RawValues db1 u start stop LatestVersion).err = none) ∧
    Delete db1 u a b = .ok (v, db1) ∧
    (∀ batch : List RawPoint, ∃ v2 db2,
      Insert db1 u batch = .ok (v2, db2) ∧ Flush db2 u = .ok db2) := by
  obtain ⟨s, s1, hs, hs1, hv, hp⟩ := delete_ok h
  refine ⟨?_, ?_, ?_⟩
  · intro start stop h1 h2
    refine ⟨?_, by simp [RawValues, hs1]⟩
    simp only [RawValues, hs1]
    rw [pointsAt_latest, hp, List.filter_eq_nil_iff]
    intro p hpm
    have hq := (List.mem_filter.mp hpm).2
    simp only [Bool.not_eq_true', Bool.and_eq_false_iff, decide_eq_false_iff_not] at hq
    simp only [Bool.and_eq_true, decide_eq_true_eq]
    omega
  · have hnil : (s1.points.filter fun p => decide (a ≤ p.Time) && decide (p.Time < b)) = [] := by
      rw [hp, List.filter_eq_nil_iff]
      intro p hpm
      have hq := (List.mem_filter.mp hpm).2
      simp only [Bool.not_eq_true', Bool.and_eq_false_iff, decide_eq_false_iff_not] at hq
      simp only [Bool.and_eq_true, decide_eq_true_eq]
      omega
    simp only [Delete, hs1, hnil, if_true, hv]
  · intro batch
    by_cases hne : batch = []
    · subst hne
      exact ⟨s1.version, db1, by simp [Insert, hs1], by simp [Flush, hs1]⟩
    · refine ⟨s1.version + 1, db1.update u (fun s' => { s' with commits :=
          ⟨s1.version + 1, batch.map fun p => p.Time, insertAll batch s1.points⟩ :: s'.commits }),
        by simp only [Insert, hs1, hne, if_false], ?_⟩
      have hf2 := @find_update db1 u s1
        (fun s' => { s' with commits :=
          ⟨s1.version + 1, batch.map fun p => p.Time, insertAll batch s1.points⟩ :: s'.commits })
        (fun _ => rfl) hs1
      simp only [Flush, hf2]

/-- Witness of C21: the scenario of the tests: points at `0..99`, a flush, then
the deletion of `[-100, 200)` and the query over `[0, 99)`. -/
theorem delete_is_synchronous_witness :
    Delete scenarioFirst 7 (-100) 200 = .ok (12, scenarioDeleted) ∧
    (RawValues scenarioDeleted 7 0 99 LatestVersion).items = [] ∧
    (RawValues scenarioDeleted 7 0 99 LatestVersion).err = none ∧
    Delete scenarioDeleted 7 (-100) 200 = .ok (12, scenarioDeleted) :=
  ⟨by decide,
   ((delete_is_synchronous scenarioFirst scenarioDeleted 7 (-100) 200 12 (by decide)).1 0 99
      (by decide) (by decide)).1,
   ((delete_is_synchronous scenarioFirst scenarioDeleted 7 (-100) 200 12 (by decide)).1 0 99
      (by decide) (by decide)).2,
   (delete_is_synchronous scenarioFirst scenarioDeleted 7 (-100) 200 12 (by decide)).2.1⟩


/-- What a successful `Insert` does to the list of live streams. -/
theorem insert_streams {db db1 : DB} {u : UUID} {values : List RawPoint} {v : Nat}
    (h : Insert db u values = .ok (v, db1)) :
    db1.retired = db.retired ∧
    (db1.streams.filter fun s => !decide (s.uuid = u))
      = db.streams.filter fun s => !decide (s.uuid = u) := by
  unfold Insert at h
  cases hf : db.find u with
  | none => simp [hf] at h
  | some s =>
    simp only [hf] at h
    split at h
    · cases h
      exact ⟨rfl, rfl⟩
    · cases h
      refine ⟨rfl, ?_⟩
      simp only [DB.update]
      induction db.streams with
      | nil => rfl
      | cons x xs ih =>
        by_cases hx : x.uuid = u
        · simp [hx, ih]
        · simp [hx, ih]

theorem obliterate_ok {db db1 : DB} {u : UUID} (h : Obliterate db u = .ok db1) :
    db1 = ⟨db.streams.filter fun s => !decide (s.uuid = u), u :: db.retired⟩ := by
  unfold Obliterate at h
  cases hf : db.find u with
  | none => simp [hf] at h
  | some s =>
    simp only [hf] at h
    cases h
    rfl

theorem find_after_obliterate {db db1 : DB} {u : UUID} (h : Obliterate db u = .ok db1) :
    db1.find u = none ∧ db1.used u = true := by
  rw [obliterate_ok h]
  constructor
  · simp [DB.find, List.find?_eq_none]
  · simp [DB.used]

/-- C23: `LookupStreams` with no annotation filter delivers, each once and
without error, exactly the live streams whose collection is the given name, or
starts with it when the lookup is by name start, and whose tags hold every
pair of the tag filter, whatever other tags they carry; on the `20`
collections of `50` streams of the test the five queries deliver `1000`, `50`,
`0`, `20` and `1` streams. -/
theorem lookup_streams_exact :
    (∀ (db : DB) (col : String) (byStart : Bool) (tf : KV),
      (LookupStreams db col byStart tf []).err = none ∧
      (LookupStreams db col byStart tf []).items.Sublist db.streams ∧
      ∀ s, s ∈ (LookupStreams db col byStart tf []).items ↔
        s ∈ db.streams ∧
        (if byStart then col.data <+: s.collection.data else s.collection = col) ∧
        ∀ kv ∈ tf, kv ∈ s.tags) ∧
    (LookupStreams lookupDB collectionStart true [] []).items.length = 1000 ∧
    (LookupStreams lookupDB (collectionStart ++ ".000") false [] []).items.length = 50 ∧
    (LookupStreams lookupDB (collectionStart ++ ".00") false [] []).items.length = 0 ∧
    (LookupStreams lookupDB collectionStart true [("name", some "23")] []).items.length = 20 ∧
    (LookupStreams lookupDB collectionStart true [("name", some "16"), ("unit", some "13")]
      []).items.length = 1 := by
  refine ⟨?_, by decide, by decide, by decide, by decide, by decide⟩
  intro db col byStart tf
  refine ⟨rfl, List.filter_sublist _, ?_⟩
  intro s
  simp only [LookupStreams, List.mem_filter, matchesCollection, holdsAll, Bool.and_eq_true,
    List.all_eq_true, decide_eq_true_eq, List.all_nil, and_true]
  cases byStart
  · simp
  · simp [List.isPrefixOf_iff_prefix]

/-- Witness of C23: a stream with the tags `name` and `unit` is found by a
filter on `name` alone. -/
theorem lookup_streams_exact_witness :
    lookupStream 0 23 ∈ (LookupStreams lookupDB collectionStart true [("name", some "23")] []).items :=
  ((lookup_streams_exact.1 lookupDB collectionStart true [("name", some "23")]).2.2
    (lookupStream 0 23)).mpr ⟨by decide, by decide, by decide⟩

/-- C24: a stream created with annotations returns from `Annotations` exactly
those annotations: created with the one annotation `ann` of any string value,
the value returned at the key `ann` is that string; created with none, the
map returned is empty. -/
theorem annotations_roundtrip (db db1 : DB) (u : UUID) (c : String) (tags ann : KV)
    (h : Create db u c tags ann = .ok db1) :
    (∃ ver, Annotations db1 u = .ok (ann, ver)) ∧
    (∀ value : String, ann = [("ann", some value)] →
      ∃ m ver, Annotations db1 u = .ok (m, ver) ∧ m.lookup "ann" = some (some value)) ∧
    (ann = [] → ∃ ver, Annotations db1 u = .ok ([], ver)) := by
  have hf := find_of_create h
  have h1 : Annotations db1 u = .ok (ann, 0) := by simp [Annotations, hf]
  refine ⟨⟨0, h1⟩, ?_, ?_⟩
  · intro value hv
    refine ⟨ann, 0, h1, ?_⟩
    subst hv
    simp [List.lookup]
  · intro hv
    subst hv
    exact ⟨0, h1⟩

/-- Witness of C24: an annotation value with characters outside ASCII. -/
theorem annotations_roundtrip_witness :
    ∃ m ver, Annotations
        ⟨[⟨7, "test/7", [("name", some "n")], [("ann", some sampleAnnotation)], 0, []⟩], []⟩ 7
      = .ok (m, ver) ∧ m.lookup "ann" = some (some sampleAnnotation) :=
  (annotations_roundtrip emptyDB _ 7 "test/7" [("name", some "n")]
    [("ann", some sampleAnnotation)] (by decide)).2.1 sampleAnnotation rfl

end Store

/-! ## Disconnect of the client -/

theorem take_two_prologue (w : ResponseWriter) (req : HTTPRequest) (rest : List Event)
    (hw : w.closeNotifier = true) :
    (prologue w req ++ rest).take 2
      = [.withCancel req.Context, .watchClose (handlerCtx req)] := by
  simp [prologue, hw]

theorem closeWatcher_closed (ctx : Ctx) (pick : SelectCase) (s : WatchWorld)
    (hclosed : s.closeNotified = true) :
    ∃ s1, closeWatcher ctx pick s = some s1 ∧ s1.isDone ctx = true ∧
      s1.closeNotified = true ∧
      (s.isDone ctx = false → s1 = ⟨ctx :: s.cancelled, true⟩) ∧
      (s.isDone ctx = true → s1 = s ∨ s1 = ⟨ctx :: s.cancelled, true⟩) := by
  have hself : Ctx.derivedFrom ctx ctx = true := by
    cases ctx <;> simp [Ctx.derivedFrom]
  obtain ⟨cancelled, closeNotified⟩ := s
  simp only at hclosed
  subst hclosed
  have hnew : WatchWorld.isDone ⟨ctx :: cancelled, true⟩ ctx = true := by
    simp [WatchWorld.isDone, hself]
  cases hd : WatchWorld.isDone ⟨cancelled, true⟩ ctx <;> cases pick
  · exact ⟨⟨ctx :: cancelled, true⟩, by simp only [closeWatcher, hd], hnew, rfl,
      fun _ => rfl, fun h => Or.inr rfl⟩
  · exact ⟨⟨ctx :: cancelled, true⟩, by simp only [closeWatcher, hd], hnew, rfl,
      fun _ => rfl, fun h => Or.inr rfl⟩
  · exact ⟨⟨cancelled, true⟩, by simp only [closeWatcher, hd], hd, rfl,
      fun h => Bool.noConfusion h, fun _ => Or.inl rfl⟩
  · exact ⟨⟨ctx :: cancelled, true⟩, by simp only [closeWatcher, hd], hnew, rfl,
      fun _ => rfl, fun h => Or.inr rfl⟩

theorem isDone_annotated (s : WatchWorld) (c : Ctx) (md : MD) (h : s.isDone c = true) :
    s.isDone (.annotated c md) = true := by
  simp only [WatchWorld.isDone, List.any_eq_true] at h ⊢
  obtain ⟨a, ha, hd⟩ := h
  exact ⟨a, ha, by simp [Ctx.derivedFrom, hd]⟩

/-- C11: in every handler whose response writer is a `http.CloseNotifier`, the
watcher goroutine is started on the cancellable context of the handler before
anything else is done with the request.  While the channel of `CloseNotify()`
has not delivered, the watcher cancels nothing: it blocks, or returns when the
context is done.  Once the channel has delivered, the watcher does not block:
it leaves the context of the handler done, by calling `cancel()` when the
context was not done yet, and under that every context a backend method was
called with is done. -/
theorem disconnect_cancels_rpc (X : Op) (mux : ServeMux) (client : BTrDBClient)
    (w : ResponseWriter) (req : HTTPRequest) (s : WatchWorld) (pick : SelectCase)
    (hw : w.closeNotifier = true) :
    (handlerOf X mux client w req).take 2
      = [.withCancel req.Context, .watchClose (handlerCtx req)] ∧
    (s.closeNotified = false →
      closeWatcher (handlerCtx req) pick s
        = if s.isDone (handlerCtx req) then some s else none) ∧
    (s.closeNotified = true →
      ∃ s1, closeWatcher (handlerCtx req) pick s = some s1 ∧
        (s.isDone (handlerCtx req) = false →
          s1 = ⟨handlerCtx req :: s.cancelled, true⟩) ∧
        s1.isDone (handlerCtx req) = true ∧
        ∀ c ∈ calls (handlerOf X mux client w req), s1.isDone c.2.1 = true) := by
  have hcalls : ∀ c ∈ calls (handlerOf X mux client w req),
      ∃ md, c.2.1 = .annotated (handlerCtx req) md := by
    rcases handler_paths X mux client w req with ⟨e, -, h⟩ | ⟨md, e, -, -, h⟩ |
      ⟨md, e, -, -, -, -, h⟩ | ⟨md, -, -, -, -, h⟩ | ⟨md, e, -, -, -, -, h⟩ |
      ⟨md, s, e, -, -, -, -, -, h⟩ | ⟨md, s, -, -, -, -, -, h⟩ <;>
    · rw [h]
      simp only [calls_append, calls_prologue]
      simp [calls]
  have htake : (handlerOf X mux client w req).take 2
      = [.withCancel req.Context, .watchClose (handlerCtx req)] := by
    rcases handler_paths X mux client w req with ⟨e, -, h⟩ | ⟨md, e, -, -, h⟩ |
      ⟨md, e, -, -, -, -, h⟩ | ⟨md, -, -, -, -, h⟩ | ⟨md, e, -, -, -, -, h⟩ |
      ⟨md, s, e, -, -, -, -, -, h⟩ | ⟨md, s, -, -, -, -, -, h⟩ <;>
    · rw [h]
      exact take_two_prologue w req _ hw
  refine ⟨htake, ?_, ?_⟩
  · intro hopen
    cases hd : s.isDone (handlerCtx req) <;> cases pick <;>
      simp only [closeWatcher, hd, hopen] <;> rfl
  · intro hclosed
    obtain ⟨s1, hstep, hdone, -, hfresh, -⟩ :=
      closeWatcher_closed (handlerCtx req) pick s hclosed
    refine ⟨s1, hstep, hfresh, hdone, ?_⟩
    intro c hc
    obtain ⟨md, hmd⟩ := hcalls c hc
    rw [hmd]
    exact isDone_annotated s1 _ md hdone

/-- Witness of C11: a `RawValues` request whose client goes away while nothing
has been cancelled: the watcher cancels the context of the handler, and the
context the backend was called with is done. -/
theorem disconnect_cancels_rpc_witness :
    sampleWriter.closeNotifier = true ∧ disconnectedWorld.closeNotified = true ∧
    closeWatcher (handlerCtx sampleRequest) .done disconnectedWorld
      = some ⟨[handlerCtx sampleRequest], true⟩ ∧
    (calls (handlerOf .RawValues sampleMux sampleClient sampleWriter sampleRequest)).map
      (fun c => c.2.1) = [.annotated (handlerCtx sampleRequest) []] ∧
    WatchWorld.isDone ⟨[handlerCtx sampleRequest], true⟩
      (.annotated (handlerCtx sampleRequest) []) = true ∧
    closeWatcher (handlerCtx sampleRequest) .done ⟨[], false⟩ = none ∧
    (∃ s1, closeWatcher (handlerCtx sampleRequest) .done disconnectedWorld = some s1 ∧
      (disconnectedWorld.isDone (handlerCtx sampleRequest) = false →
        s1 = ⟨handlerCtx sampleRequest :: disconnectedWorld.cancelled, true⟩) ∧
      s1.isDone (handlerCtx sampleRequest) = true ∧
      ∀ c ∈ calls (handlerOf .RawValues sampleMux sampleClient sampleWriter sampleRequest),
        s1.isDone c.2.1 = true) :=
  ⟨rfl, rfl, by decide, by decide, by decide, by decide,
   (disconnect_cancels_rpc .RawValues sampleMux sampleClient sampleWriter sampleRequest
     disconnectedWorld .done rfl).2.2 rfl⟩

/-! ## The database service: the round trip within 64-bit times, and obliteration -/

namespace Store

set_option maxRecDepth 100000

theorem wrapInt64_of_isInt64 (x : Int) (h : isInt64 x = true) : wrapInt64 x = x := by
  simp only [isInt64, minInt64, maxInt64, Bool.and_eq_true, decide_eq_true_eq] at h
  unfold wrapInt64
  omega

theorem maxTime_mem (batch : List RawPoint) (hne : batch ≠ []) :
    ∃ p ∈ batch, maxTime batch = p.Time := by
  induction batch with
  | nil => exact absurd rfl hne
  | cons a as ih =>
    cases as with
    | nil => exact ⟨a, by simp, rfl⟩
    | cons b bs =>
      obtain ⟨p, hp, hpe⟩ := ih (by simp)
      simp only [maxTime]
      rcases le_total a.Time (maxTime (b :: bs)) with h | h
      · exact ⟨p, List.mem_cons_of_mem _ hp, by rw [max_eq_right h, hpe]⟩
      · exact ⟨a, by simp, by rw [max_eq_left h]⟩

/-- Replacing the stream `u` leaves every other stream as it was. -/
theorem update_streams (db : DB) (u : UUID) (f : Stream → Stream)
    (hf : ∀ x, (f x).uuid = x.uuid) :
    ((db.update u f).streams.filter fun s => !decide (s.uuid = u))
      = db.streams.filter fun s => !decide (s.uuid = u) := by
  simp only [DB.update]
  induction db.streams with
  | nil => rfl
  | cons x xs ih =>
    by_cases hx : x.uuid = u
    · have hfx : (f x).uuid = u := (hf x).trans hx
      simp [hx, hfx, ih]
    · simp [hx, ih]

/-- What a successful `Delete` does to the list of live streams. -/
theorem delete_streams {db db1 : DB} {u : UUID} {start stop : Int} {v : Nat}
    (h : Delete db u start stop = .ok (v, db1)) :
    db1.retired = db.retired ∧
    (db1.streams.filter fun s => !decide (s.uuid = u))
      = db.streams.filter fun s => !decide (s.uuid = u) := by
  unfold Delete at h
  cases hf : db.find u with
  | none => simp [hf] at h
  | some s =>
    simp only [hf] at h
    split at h
    · cases h
      exact ⟨rfl, rfl⟩
    · cases h
      exact ⟨rfl, update_streams db u _ fun _ => rfl⟩

/-- A history of operations on the stream `u` leaves every other stream, and
the retired UUIDs, as they were. -/
theorem applyOps_streams (u : UUID) (ops : List StreamOp) :
    ∀ (db db1 : DB), applyOps u ops db = some db1 →
      db1.retired = db.retired ∧
      (db1.streams.filter fun s => !decide (s.uuid = u))
        = db.streams.filter fun s => !decide (s.uuid = u) := by
  induction ops with
  | nil =>
    intro db db1 h
    simp only [applyOps, Option.some.injEq] at h
    subst h
    exact ⟨rfl, rfl⟩
  | cons op ops ih =>
    intro db db1 h
    cases op with
    | insert values =>
      simp only [applyOps] at h
      cases hi : Insert db u values with
      | error e => simp [hi] at h
      | ok r =>
        obtain ⟨v, db2⟩ := r
        simp only [hi] at h
        obtain ⟨h1, h2⟩ := ih db2 db1 h
        obtain ⟨h3, h4⟩ := insert_streams hi
        exact ⟨h1.trans h3, h2.trans h4⟩
    | delete start stop =>
      simp only [applyOps] at h
      cases hi : Delete db u start stop with
      | error e => simp [hi] at h
      | ok r =>
        obtain ⟨v, db2⟩ := r
        simp only [hi] at h
        obtain ⟨h1, h2⟩ := ih db2 db1 h
        obtain ⟨h3, h4⟩ := delete_streams hi
        exact ⟨h1.trans h3, h2.trans h4⟩
    | flush =>
      simp only [applyOps] at h
      cases hi : Flush db u with
      | error e => simp [hi] at h
      | ok db2 =>
        simp only [hi] at h
        have := flush_ok hi
        subst this
        exact ih db2 db1 h

/-- C20 as stated fails at the end of the 64-bit range: the batch of one point
at the largest `int64` time is inserted on a fresh stream and flushed; the
bound `max + 1` of the query wraps to the least `int64`, the range is empty,
and `RawValues` delivers no point. -/
theorem roundtrip_fails_at_last_instant :
    Create emptyDB 7 "test/7" [("name", some "n")] [] = .ok scenarioCreated ∧
    Insert scenarioCreated 7 lastInstantBatch = .ok (11, scenarioLastInstant) ∧
    Flush scenarioLastInstant 7 = .ok scenarioLastInstant ∧
    (lastInstantBatch.map fun p => p.Time).Nodup ∧
    (∀ p ∈ lastInstantBatch, isInt64 p.Time = true) ∧
    wrapInt64 (maxTime lastInstantBatch + 1) = minInt64 ∧
    (RawValues scenarioLastInstant 7 (minTime lastInstantBatch)
      (wrapInt64 (maxTime lastInstantBatch + 1)) LatestVersion).items = [] ∧
    ¬ (RawValues scenarioLastInstant 7 (minTime lastInstantBatch)
      (wrapInt64 (maxTime lastInstantBatch + 1)) LatestVersion).items.Perm lastInstantBatch := by
  have hitems : (RawValues scenarioLastInstant 7 (minTime lastInstantBatch)
      (wrapInt64 (maxTime lastInstantBatch + 1)) LatestVersion).items = [] := by decide
  refine ⟨by decide, by decide, by decide, by decide, by decide, by decide, hitems, ?_⟩
  rw [hitems]
  intro h
  have := h.length_eq
  simp [lastInstantBatch] at this

/-- C20: on a fresh stream, after the insert of a batch with distinct `int64`
timestamps, the largest of them below the largest `int64`, and a flush,
`RawValues` over `[min time, max time + 1)`, the bound computed in `int64`, at
the latest version delivers no error and exactly the points of the batch, each
once, in strictly increasing time order. -/
theorem insert_then_rawvalues_roundtrip (db db0 db1 db2 : DB) (u : UUID) (c : String)
    (tags a : KV) (batch : List RawPoint) (v : Nat)
    (hnd : (batch.map fun p => p.Time).Nodup)
    (h64 : ∀ p ∈ batch, isInt64 p.Time = true)
    (hmax : maxTime batch < maxInt64)
    (hc : Create db u c tags a = .ok db0) (hi : Insert db0 u batch = .ok (v, db1))
    (hfl : Flush db1 u = .ok db2) :
    (RawValues db2 u (minTime batch) (wrapInt64 (maxTime batch + 1)) LatestVersion).err = none ∧
    (RawValues db2 u (minTime batch) (wrapInt64 (maxTime batch + 1))
      LatestVersion).items.Perm batch ∧
    (RawValues db2 u (minTime batch) (wrapInt64 (maxTime batch + 1))
      LatestVersion).items.Pairwise (fun p q => p.Time < q.Time) ∧
    (RawValues db2 u (minTime batch) (wrapInt64 (maxTime batch + 1))
      LatestVersion).items.Nodup := by
  have hwrap : wrapInt64 (maxTime batch + 1) = maxTime batch + 1 := by
    apply wrapInt64_of_isInt64
    have hlow : minInt64 ≤ maxTime batch := by
      by_cases hne : batch = []
      · subst hne
        decide
      · obtain ⟨p, hp, hpe⟩ := maxTime_mem batch hne
        have := h64 p hp
        simp only [isInt64, Bool.and_eq_true, decide_eq_true_eq] at this
        rw [hpe]
        exact this.1
    simp only [isInt64, minInt64, maxInt64, Bool.and_eq_true, decide_eq_true_eq] at hlow hmax ⊢
    omega
  rw [hwrap]
  have h0 := find_of_create hc
  obtain ⟨s, s1, hs, hs1, hpts, -⟩ := insert_points hi
  rw [h0] at hs
  cases hs
  have := flush_ok hfl
  subst this
  have hp : s1.points = insertAll batch [] := hpts
  have hperm : (insertAll batch []).Perm batch := by
    simpa using insertAll_perm batch [] hnd (by simp)
  have hsorted : (insertAll batch []).Pairwise fun p q => p.Time < q.Time :=
    insertAll_sorted batch [] List.Pairwise.nil
  have hitems : (RawValues db2 u (minTime batch) (maxTime batch + 1) LatestVersion).items
      = insertAll batch [] := by
    simp only [RawValues, hs1]
    rw [pointsAt_latest, hp, List.filter_eq_self]
    intro p hp
    have hm : p ∈ batch := hperm.subset hp
    have h1 := minTime_le batch p hm
    have h2 := le_maxTime batch p hm
    simp only [Bool.and_eq_true, decide_eq_true_eq]
    omega
  refine ⟨by simp [RawValues, hs1], ?_, ?_, ?_⟩
  · rw [hitems]
    exact hperm
  · rw [hitems]
    exact hsorted
  · rw [hitems]
    exact hsorted.imp fun h heq => by simp [heq] at h

/-- Witness of C20: a batch given out of time order comes back in time order. -/
theorem insert_then_rawvalues_roundtrip_witness :
    wrapInt64 (maxTime shuffledBatch + 1) = 10 ∧
    (RawValues scenarioShuffled 7 (-3) 10 LatestVersion).items
      = [⟨-3, 30⟩, ⟨5, 50⟩, ⟨9, 90⟩] ∧
    (RawValues scenarioShuffled 7 (minTime shuffledBatch)
      (wrapInt64 (maxTime shuffledBatch + 1)) LatestVersion).items.Perm shuffledBatch :=
  ⟨by decide, by decide,
   (insert_then_rawvalues_roundtrip emptyDB scenarioCreated scenarioShuffled scenarioShuffled
      7 "test/7" [("name", some "n")] [] shuffledBatch 11
      (by decide) (by decide) (by decide) (by decide) (by decide) (by decide)).2.1⟩

/-- C22: after `Obliterate` of a stream succeeds, whatever the history of the
stream, `Annotations` fails, `RawValues` delivers no point and ends with an
error, `Create` with the same UUID fails, and every `LookupStreams` delivers
what it delivered before the obliteration less the streams with that UUID.
When the stream had been created in some state and only operations on this
stream followed, every `LookupStreams` delivers what it delivered in that
state. -/
theorem obliterate_retires_stream (db db1 : DB) (u : UUID)
    (ho : Obliterate db u = .ok db1) :
    (∃ msg, Annotations db1 u = .error ⟨.NoSuchStream, msg⟩) ∧
    (∀ (start stop : Int) (version : Nat),
      (RawValues db1 u start stop version).err ≠ none ∧
      (RawValues db1 u start stop version).items = []) ∧
    (∀ (c2 : String) (t2 a2 : KV), ∃ msg, Create db1 u c2 t2 a2 = .error ⟨.SameStream, msg⟩) ∧
    (∀ (col : String) (byStart : Bool) (tf af : KV),
      (∀ s ∈ (LookupStreams db1 col byStart tf af).items, s.uuid ≠ u) ∧
      (LookupStreams db1 col byStart tf af).items
        = (LookupStreams db col byStart tf af).items.filter fun s => !decide (s.uuid = u)) ∧
    (∀ (db0 dbc : DB) (c : String) (t a : KV) (ops : List StreamOp),
      Create db0 u c t a = .ok dbc → applyOps u ops dbc = some db →
      ∀ (col : String) (byStart : Bool) (tf af : KV),
        LookupStreams db1 col byStart tf af = LookupStreams db0 col byStart tf af) := by
  obtain ⟨hfind, hused⟩ := find_after_obliterate ho
  refine ⟨⟨"no such stream", by simp [Annotations, hfind]⟩, ?_, ?_, ?_, ?_⟩
  · intro start stop version
    simp [RawValues, hfind]
  · intro c2 t2 a2
    exact ⟨"a stream with that uuid exists or existed", by simp [Create, hused]⟩
  · intro col byStart tf af
    constructor
    · intro s hs
      simp only [LookupStreams] at hs
      have hm := (List.mem_filter.mp hs).1
      rw [obliterate_ok ho] at hm
      simpa using (List.mem_filter.mp hm).2
    · rw [obliterate_ok ho]
      simp only [LookupStreams, List.filter_filter]
      congr 1
      funext s
      exact Bool.and_comm _ _
  · intro db0 dbc c t a ops hc hops col byStart tf af
    have hstreams : db1.streams = db0.streams := by
      rw [obliterate_ok ho]
      simp only
      rw [(applyOps_streams u ops dbc db hops).2]
      obtain ⟨hu, h1⟩ := create_ok hc
      rw [h1]
      simp only [List.filter_append]
      have hn : ∀ s ∈ db0.streams, s.uuid ≠ u := by
        intro s hs heq
        simp only [DB.used, Bool.or_eq_false_iff] at hu
        have h2 := hu.1
        rw [List.any_eq_false] at h2
        exact h2 s hs (by simpa using heq)
      have hself : (db0.streams.filter fun s => !decide (s.uuid = u)) = db0.streams := by
        rw [List.filter_eq_self]
        intro s hs
        simpa using hn s hs
      rw [hself]
      simp
    simp only [LookupStreams, hstreams]

/-- Witness of C22: the obliteration test on a service where another stream
lives under `obl.`: the lookup finds one stream before the creation, two
after it, and one again after the obliteration. -/
theorem obliterate_retires_stream_witness :
    Create oblBefore 7 "obl.7" oblTags [] = .ok oblCreated ∧
    applyOps 7 oblHistory oblCreated = some oblWritten ∧
    Obliterate oblWritten 7 = .ok oblRetired ∧
    (LookupStreams oblBefore "obl." true oblTags []).items.length = 1 ∧
    (LookupStreams oblWritten "obl." true oblTags []).items.length = 2 ∧
    (LookupStreams oblRetired "obl." true oblTags []).items.length = 1 ∧
    (∃ msg, Annotations oblRetired 7 = .error ⟨.NoSuchStream, msg⟩) ∧
    (RawValues oblRetired 7 0 100 LatestVersion).err ≠ none ∧
    (∃ msg, Create oblRetired 7 "obl.7" oblTags [] = .error ⟨.SameStream, msg⟩) ∧
    LookupStreams oblRetired "obl." true oblTags []
      = LookupStreams oblBefore "obl." true oblTags [] :=
  ⟨by decide, by decide, by decide, by decide, by decide, by decide,
   (obliterate_retires_stream oblWritten oblRetired 7 (by decide)).1,
   ((obliterate_retires_stream oblWritten oblRetired 7 (by decide)).2.1 0 100 LatestVersion).1,
   (obliterate_retires_stream oblWritten oblRetired 7 (by decide)).2.2.1 "obl.7" oblTags [],
   (obliterate_retires_stream oblWritten oblRetired 7 (by decide)).2.2.2.2 oblBefore oblCreated
     "obl.7" oblTags [] oblHistory (by decide) (by decide) "obl." true oblTags []⟩

end Store

end BTrDB
